import Mathlib

/-!
Verification of the SolinBlog page store, HTML validator, SEO injector and
URL slug helpers (src/store.rs, src/web.rs), via a shallow embedding.

Modelling conventions:
* Rust strings that the scanners treat as byte buffers are embedded as
  `List Char`; on ASCII input one character is exactly one byte, so cursor
  positions agree with the source's byte offsets (on multi-byte UTF-8 input
  the model counts characters where the source counts bytes, which changes
  reported offsets but not accept/reject behaviour, since every byte of a
  multi-byte encoding is >= 0x80 and matches none of the ASCII tests the
  scanners perform).
* The filesystem owned by the store is a value of type `FsState`: an
  association list of page directories (each holding the parsed contents of
  meta.json and index.html, `none` meaning the file is absent) plus the
  parsed contents of index.json (`none` meaning missing or unreadable; the
  source rebuilds the index in both cases).  `serde_json` values in the
  open `extra` maps are abstracted as strings.  I/O failures other than
  "file missing" are outside the model.
* The clock (`now_unix_seconds`) and the random source (`getrandom`) are an
  explicit environment: `Env.now` is the current unix time and `Env.rand i`
  is the byte vector produced by the i-th `getrandom` call of the single
  uid generation an operation performs.
* `BTreeMap` is embedded as a key-sorted association list with the usual
  insert/lookup, so iteration order matches the source's sorted iteration.
-/

/-- Alias bytes of the random source: one `getrandom` result. -/
abbrev RandBytes := List Nat

/-- SeoMeta from src/store.rs (serde field `title` is an alias of
`seo_title`, so the struct stores a single title field). -/
structure SeoMeta where
  seo_title : String
  description : String
  keywords : Option (List String)
  extra : List (String × String)
deriving DecidableEq

/-- PageMeta from src/store.rs. -/
structure PageMeta where
  seo : SeoMeta
  page_uid : String
  created_at : Int
  updated_at : Int
  extra : List (String × String)
deriving DecidableEq

/-- PageIndexEntry from src/store.rs. -/
structure PageIndexEntry where
  page_id : String
  seo : SeoMeta
  page_uid : String
  original_id : Option String
deriving DecidableEq

/-- StoreIndex from src/store.rs: a BTreeMap embedded as a key-sorted
association list. -/
structure StoreIndex where
  pages : List (String × PageIndexEntry)
deriving DecidableEq

/-- One page directory on disk: the parsed contents of meta.json and
index.html, `none` when the file is absent. -/
structure PageDir where
  meta : Option PageMeta
  html : Option String
deriving DecidableEq

/-- The filesystem tree owned by the store: the page directories under the
base directory, and the contents of index.json (`none` = missing or
unreadable). -/
structure FsState where
  dirs : List (String × PageDir)
  indexFile : Option StoreIndex
deriving DecidableEq

/-- Environment of one store operation: the clock and the random stream. -/
structure Env where
  now : Int
  rand : Nat → RandBytes

/-- Typed result of store operations, mirroring the anyhow error cases the
source produces with bail!. -/
inductive StoreError where
  | alreadyExists (id : String)
  | notFound (id : String)
  | validation (msg : String)
  | uidExhausted
  | ioErr (msg : String)
deriving DecidableEq

deriving instance DecidableEq for Except

/-- BTreeMap insert on a key-sorted association list. -/
def mapInsert (k : String) (v : PageIndexEntry) :
    List (String × PageIndexEntry) → List (String × PageIndexEntry)
  | [] => [(k, v)]
  | (k2, v2) :: rest =>
    if k < k2 then (k, v) :: (k2, v2) :: rest
    else if k = k2 then (k, v) :: rest
    else (k2, v2) :: mapInsert k v rest

/-- BTreeMap get on an association list. -/
def mapLookup (k : String) : List (String × PageIndexEntry) → Option PageIndexEntry
  | [] => none
  | (k2, v2) :: rest => if k2 = k then some v2 else mapLookup k rest

/-- Directory lookup in the base directory. -/
def lookupDir (st : FsState) (k : String) : Option PageDir :=
  (st.dirs.find? (fun p => p.1 = k)).map (fun p => p.2)

/-- Replace the named directory entry, or append it if absent. -/
def setDirList (k : String) (d : PageDir) :
    List (String × PageDir) → List (String × PageDir)
  | [] => [(k, d)]
  | (k2, d2) :: rest =>
    if k2 = k then (k, d) :: rest else (k2, d2) :: setDirList k d rest

/-- Update one directory of the state. -/
def setDir (st : FsState) (k : String) (d : PageDir) : FsState :=
  { st with dirs := setDirList k d st.dirs }

/-- Rust Option::or. -/
def optOr {α : Type} : Option α → Option α → Option α
  | some x, _ => some x
  | none, b => b

/-- sanitize_page_id from src/store.rs: keep ASCII alphanumerics, minus and
underscore, replace everything else by underscore; an empty result becomes
the placeholder id "page". -/
def sanitize_page_id (page_id : String) : String :=
  let sanitized : List Char := page_id.toList.map (fun ch =>
    if ch.isAlphanum || ch = '-' || ch = '_' then ch else '_')
  if sanitized.isEmpty then "page" else String.mk sanitized

/-- PAGE_UID_ALPHABET from src/store.rs: 62 alphanumeric characters. -/
def PAGE_UID_ALPHABET : List Char :=
  "ABCDEFGHIJKLMNOPQRSTUVWXYZabcdefghijklmnopqrstuvwxyz0123456789".toList

/-- generate_page_uid from src/store.rs, applied to the 16 random bytes
obtained from getrandom: each byte is reduced mod 62 and indexes the
alphabet. -/
def generate_page_uid (bytes : RandBytes) : String :=
  String.mk (bytes.map (fun b => PAGE_UID_ALPHABET.getD (b % 62) 'A'))

/-- Collision test of generate_unique_page_uid: some index entry already
carries this page_uid. -/
def uidCollides (index : StoreIndex) (uid : String) : Bool :=
  index.pages.any (fun entry => entry.2.page_uid = uid)

/-- The for-loop of generate_unique_page_uid: fuel counts the remaining
attempts (8 at the start), i numbers the getrandom calls. -/
def genUidLoop (index : StoreIndex) (rand : Nat → RandBytes) :
    Nat → Nat → Except StoreError String
  | 0, _ => .error .uidExhausted
  | fuel + 1, i =>
    let uid := generate_page_uid (rand i)
    if uidCollides index uid then genUidLoop index rand fuel (i + 1)
    else .ok uid

/-- generate_unique_page_uid from src/store.rs: up to 8 samples against the
current index snapshot; pure in the store state (it only reads the index
passed to it). -/
def generate_unique_page_uid (index : StoreIndex) (rand : Nat → RandBytes) :
    Except StoreError String :=
  genUidLoop index rand 8 0

/-- build_page_url from src/web.rs. -/
def build_page_url (page_id : String) (seo_title : String) : String :=
  if seo_title.isEmpty then "/pages/" ++ page_id
  else "/pages/" ++ seo_title ++ "+" ++ page_id

/-- The first item of slug.rsplitn(2, plus).next(): the characters after
the last plus sign, or the whole slug when it has none. -/
def rsplitLastPlus (l : List Char) : List Char :=
  (l.reverse.takeWhile (fun c => c ≠ '+')).reverse

/-- parse_page_id_from_slug from src/web.rs: the segment after the last
plus sign (rsplitn(2, plus) and take the first part); None when that
segment is empty. -/
def parse_page_id_from_slug (slug : String) : Option String :=
  let page_id := rsplitLastPlus slug.toList
  if page_id.isEmpty then none else some (String.mk page_id)

/-- Strip the literal "/pages/" prefix from a URL (seven characters), the
form in which the web layer hands slugs to the parser. -/
def url_slug (url : String) : String :=
  String.mk (url.toList.drop 7)

/-- Rust u8::is_ascii_whitespace: space, tab, newline, form feed, carriage
return. -/
def isAsciiWsByte (c : Char) : Bool :=
  c = ' ' || c = '\t' || c = '\n' || c = Char.ofNat 13 || c = Char.ofNat 12

/-- Rust char::is_whitespace (the Unicode White_Space property), used by
str::trim. -/
def rustIsWhitespace (c : Char) : Bool :=
  c.toNat ∈ ([9, 10, 11, 12, 13, 32, 133, 160, 5760, 8192, 8193, 8194, 8195,
    8196, 8197, 8198, 8199, 8200, 8201, 8202, 8232, 8233, 8239, 8287,
    12288] : List Nat)

/-- Rust u8::to_ascii_lowercase on one byte-valued character. -/
def toLowerAscii (c : Char) : Char :=
  if 'A' ≤ c && c ≤ 'Z' then Char.ofNat (c.toNat + 32) else c

/-- Rust str::to_ascii_lowercase. -/
def lowerStr (s : String) : String :=
  String.mk (s.toList.map toLowerAscii)

/-- Cursor after the run of ASCII whitespace starting at the head of the
suffix; i is the absolute index of that head. -/
def skipWsAux : List Char → Nat → Nat
  | [], i => i
  | c :: rest, i => if isAsciiWsByte c then skipWsAux rest (i + 1) else i

/-- First non-whitespace position at or after index. -/
def skipWs (l : List Char) (index : Nat) : Nat :=
  skipWsAux (l.drop index) index

/-- A tag name byte per parse_tag_name: ASCII alphanumeric, minus or
colon. -/
def isTagNameChar (c : Char) : Bool :=
  c.isAlphanum || c = '-' || c = ':'

/-- Cursor after the run of tag-name characters at the head of the
suffix. -/
def nameEndAux : List Char → Nat → Nat
  | [], i => i
  | c :: rest, i => if isTagNameChar c then nameEndAux rest (i + 1) else i

/-- End of the tag-name run starting at index. -/
def nameEnd (l : List Char) (index : Nat) : Nat :=
  nameEndAux (l.drop index) index

/-- parse_tag_name from src/store.rs: skip whitespace, read the run of
name characters, fail when the run is empty. -/
def parse_tag_name (l : List Char) (index : Nat) (tag_start : Nat) :
    Except String (String × Nat) :=
  let s := skipWs l index
  let e := nameEnd l s
  if s = e then .error s!"missing tag name at index {tag_start}"
  else .ok (String.mk ((l.drop s).take (e - s)), e)

/-- Quote-aware scan for the closing angle bracket, walking the suffix
whose head sits at absolute index i, with the active quote if any. -/
def findTagEndAux : List Char → Nat → Option Char → Option Nat
  | [], _, _ => none
  | c :: rest, i, none =>
    if c = '\'' || c = '"' then findTagEndAux rest (i + 1) (some c)
    else if c = '>' then some i
    else findTagEndAux rest (i + 1) none
  | c :: rest, i, some active =>
    if c = active then findTagEndAux rest (i + 1) none
    else findTagEndAux rest (i + 1) (some active)

/-- find_tag_end from src/store.rs (src/web.rs holds an identical copy):
position of the first closing angle bracket at or after index that is not
inside a quoted attribute value. -/
def find_tag_end (l : List Char) (index : Nat) : Option Nat :=
  findTagEndAux (l.drop index) index none

/-- Exact substring match at a position. -/
def sliceMatches (hay : List Char) (i : Nat) (needle : List Char) : Bool :=
  needle.isPrefixOf (hay.drop i)

/-- ASCII-case-insensitive substring match at a position. -/
def sliceMatchesCI (hay : List Char) (i : Nat) (needle : List Char) : Bool :=
  (needle.map toLowerAscii).isPrefixOf ((hay.drop i).map toLowerAscii)

/-- Linear scan of find_bytes, walking the suffix whose head sits at
absolute index i. -/
def findFromAux (needle : List Char) : List Char → Nat → Option Nat
  | [], _ => none
  | c :: rest, i =>
    if needle.isPrefixOf (c :: rest) then some i
    else findFromAux needle rest (i + 1)

/-- find_bytes from src/store.rs.  The source scans start..=len-nlen; a
match cannot begin later anyway, so scanning the whole suffix is the same
function. -/
def find_bytes (hay : List Char) (start : Nat) (needle : List Char) :
    Option Nat :=
  if needle.isEmpty then some (min start hay.length)
  else if hay.length ≤ start || hay.length < needle.length then none
  else findFromAux needle (hay.drop start) start

/-- Case-insensitive linear scan, lowering both sides as the source lowers
the needle once and each haystack byte on comparison. -/
def findFromCIAux (needleLower : List Char) : List Char → Nat → Option Nat
  | [], _ => none
  | c :: rest, i =>
    if needleLower.isPrefixOf ((c :: rest).map toLowerAscii) then some i
    else findFromCIAux needleLower rest (i + 1)

/-- find_bytes_case_insensitive from src/store.rs (find_bytes_ci in
src/web.rs is identical). -/
def find_bytes_ci (hay : List Char) (start : Nat) (needle : List Char) :
    Option Nat :=
  if needle.isEmpty then some (min start hay.length)
  else if hay.length ≤ start || hay.length < needle.length then none
  else findFromCIAux (needle.map toLowerAscii) (hay.drop start) start

/-- Backward scan of is_self_closing: the counter is the source's index,
walking down towards start and skipping trailing whitespace. -/
def isSelfClosingAux (l : List Char) (start : Nat) : Nat → Bool
  | 0 => false
  | i + 1 =>
    if start < i + 1 then
      let c := l.getD i ' '
      if isAsciiWsByte c then isSelfClosingAux l start i else c = '/'
    else false

/-- is_self_closing from src/store.rs: the last non-whitespace byte before
the closing bracket is a slash. -/
def is_self_closing (l : List Char) (start : Nat) (endIdx : Nat) : Bool :=
  isSelfClosingAux l start endIdx

/-- is_void_element from src/store.rs. -/
def is_void_element (name : String) : Bool :=
  name = "area" || name = "base" || name = "br" || name = "col" ||
  name = "embed" || name = "hr" || name = "img" || name = "input" ||
  name = "link" || name = "meta" || name = "param" || name = "source" ||
  name = "track" || name = "wbr"

/-- Main loop of validate_html.  The fuel argument only bounds the number
of iterations: it starts at length + 1 and every iteration either stops or
advances the cursor by at least one, so the out-of-fuel branch is
unreachable from validate_html. -/
def validateLoop (l : List Char) : Nat → Nat → List (String × Nat) →
    Except String Unit
  | 0, _, _ => .error "internal: scanner fuel exhausted"
  | fuel + 1, i, stack =>
    if l.length ≤ i then
      match stack with
      | (tag, open_index) :: _ =>
        .error s!"unclosed tag <{tag}> starting at index {open_index}"
      | [] => .ok ()
    else
      let c := l.getD i ' '
      if c != '<' then validateLoop l fuel (i + 1) stack
      else if sliceMatches l i "<!--".toList then
        match find_bytes l (i + 4) "-->".toList with
        | some e => validateLoop l fuel (e + 3) stack
        | none => .error s!"unterminated comment at index {i}"
      else if decide (i + 1 < l.length) && l.getD (i + 1) ' ' == '!' then
        match find_tag_end l (i + 2) with
        | some e => validateLoop l fuel (e + 1) stack
        | none => .error s!"unterminated markup declaration at index {i}"
      else if decide (i + 1 < l.length) && l.getD (i + 1) ' ' == '/' then
        match parse_tag_name l (i + 2) i with
        | .error msg => .error msg
        | .ok (name0, after_name) =>
          match find_tag_end l after_name with
          | none => .error s!"unterminated closing tag at index {i}"
          | some e =>
            let name := lowerStr name0
            match stack with
            | [] => .error s!"unexpected closing tag </{name}> at index {i}"
            | (open_tag, open_index) :: stack2 =>
              if open_tag != name then
                .error s!"mismatched closing tag </{name}> at index {i}, expected </{open_tag}> for tag opened at index {open_index}"
              else validateLoop l fuel (e + 1) stack2
      else
        match parse_tag_name l (i + 1) i with
        | .error msg => .error msg
        | .ok (name0, after_name) =>
          match find_tag_end l after_name with
          | none => .error s!"unterminated opening tag at index {i}"
          | some e =>
            let selfClosing := is_self_closing l (i + 1) e
            let name := lowerStr name0
            if name == "script" || name == "style" then
              if selfClosing then validateLoop l fuel (e + 1) stack
              else
                -- the source pushes the tag, locates the closing tag and
                -- pops again, leaving the stack unchanged on success
                let closing := "</" ++ name ++ ">"
                match find_bytes_ci l (e + 1) closing.toList with
                | some close_start =>
                  validateLoop l fuel (close_start + closing.length) stack
                | none => .error s!"unterminated <{name}> starting at index {i}"
            else
              if !selfClosing && !is_void_element name then
                validateLoop l fuel (e + 1) ((name, i) :: stack)
              else validateLoop l fuel (e + 1) stack

/-- validate_html from src/store.rs.  The trimmed-empty test is stated as
"every character is whitespace", which is the same predicate. -/
def validate_html (html : String) : Except String Unit :=
  let l := html.toList
  if l.all rustIsWhitespace then .error "html is empty or whitespace"
  else
    match l.findIdx? (fun c => c = Char.ofNat 0) with
    | some pos => .error s!"html contains NUL byte at index {pos}"
    | none => validateLoop l (l.length + 1) 0 []

/-- fs::create_dir_all for a page directory: a no-op when the directory
exists, otherwise a fresh empty directory. -/
def ensureDir (st : FsState) (k : String) : FsState :=
  if (lookupDir st k).isSome then st
  else { st with dirs := st.dirs ++ [(k, ⟨none, none⟩)] }

/-- atomic_write of meta.json: creates the parent directory, then replaces
the file content. -/
def writeMeta (st : FsState) (k : String) (m : PageMeta) : FsState :=
  setDir st k { (lookupDir st k).getD ⟨none, none⟩ with meta := some m }

/-- atomic_write of index.html: creates the parent directory, then
replaces the file content. -/
def writeHtml (st : FsState) (k : String) (h : String) : FsState :=
  setDir st k { (lookupDir st k).getD ⟨none, none⟩ with html := some h }

/-- rebuild_index from src/store.rs: re-derive the index from every page
directory whose metadata parses, skipping the others, and persist it. -/
def rebuild_index (st : FsState) : StoreIndex × FsState :=
  let index : StoreIndex :=
    ⟨st.dirs.foldl (fun acc p =>
      match p.2.meta with
      | none => acc
      | some m => mapInsert p.1 ⟨p.1, m.seo, m.page_uid, none⟩ acc) []⟩
  (index, { st with indexFile := some index })

/-- load_index from src/store.rs: the parsed index file, rebuilding (and
persisting the rebuilt index) when it is missing or unreadable. -/
def load_index (st : FsState) : StoreIndex × FsState :=
  match st.indexFile with
  | some index => (index, st)
  | none => rebuild_index st

/-- save_index from src/store.rs. -/
def save_index (st : FsState) (index : StoreIndex) : FsState :=
  { st with indexFile := some index }

/-- page_exists from src/store.rs: indexed under the sanitized id, or the
page directory exists. -/
def page_exists (st : FsState) (page_id : String) : Bool × FsState :=
  let safe_id := sanitize_page_id page_id
  let p := load_index st
  if (mapLookup safe_id p.1.pages).isSome then (true, p.2)
  else ((lookupDir p.2 safe_id).isSome, p.2)

/-- The original_id preserved in the index entry: the previously recorded
one, else the caller-supplied id when sanitization changed it. -/
def resolveOriginalId (index : StoreIndex) (safe_id page_id : String) :
    Option String :=
  optOr ((mapLookup safe_id index.pages).bind (fun e => e.original_id))
    (if safe_id = page_id then none else some page_id)

/-- save_page from src/store.rs lines 101-186.  The returned state is the
filesystem as the operation leaves it, also when it fails: the source
performs its writes in sequence and an early return does not undo them.
Note the source validates the HTML only after meta.json has been
written. -/
def save_page (env : Env) (st : FsState) (page_id : String)
    (meta : PageMeta) (html : String) : Except StoreError Unit × FsState :=
  let safe_id := sanitize_page_id page_id
  let st := ensureDir st safe_id
  let p := load_index st
  let index := p.1
  let st := p.2
  let existing_meta := (lookupDir st safe_id).bind (fun d => d.meta)
  let existing_uid :=
    (existing_meta.map (fun v => v.page_uid)).bind
      (fun uid => if uid = "" then none else some uid)
  let index_uid :=
    ((mapLookup safe_id index.pages).map (fun e => e.page_uid)).bind
      (fun uid => if uid = "" then none else some uid)
  let fallback_uid := if meta.page_uid = "" then none else some meta.page_uid
  let page_uid_res : Except StoreError String :=
    match optOr (optOr existing_uid index_uid) fallback_uid with
    | some uid => .ok uid
    | none => generate_unique_page_uid index env.rand
  match page_uid_res with
  | .error e => (.error e, st)
  | .ok page_uid =>
    let now_ts := env.now
    let existing_created_at :=
      (existing_meta.map (fun v => v.created_at)).bind
        (fun v => if 0 < v then some v else none)
    let fallback_created_at :=
      if 0 < meta.created_at then some meta.created_at else none
    let created_at :=
      (optOr existing_created_at fallback_created_at).getD now_ts
    let meta_to_write :=
      { meta with page_uid := page_uid, created_at := created_at,
                  updated_at := now_ts }
    let st := writeMeta st safe_id meta_to_write
    match validate_html html with
    | .error msg => (.error (.validation msg), st)
    | .ok () =>
      let st := writeHtml st safe_id html
      let original_id := resolveOriginalId index safe_id page_id
      let entry : PageIndexEntry :=
        ⟨safe_id, meta_to_write.seo, page_uid, original_id⟩
      let st := save_index st ⟨mapInsert safe_id entry index.pages⟩
      (.ok (), st)

/-- create_page from src/store.rs. -/
def create_page (env : Env) (st : FsState) (page_id : String)
    (meta : PageMeta) (html : String) : Except StoreError Unit × FsState :=
  let p := page_exists st page_id
  if p.1 then (.error (.alreadyExists page_id), p.2)
  else save_page env p.2 page_id meta html

/-- update_page from src/store.rs. -/
def update_page (env : Env) (st : FsState) (page_id : String)
    (meta : PageMeta) (html : String) : Except StoreError Unit × FsState :=
  let p := page_exists st page_id
  if !p.1 then (.error (.notFound page_id), p.2)
  else save_page env p.2 page_id meta html

/-- load_page from src/store.rs: reads meta.json then index.html; a
missing file is the wrapped I/O failure of the source. -/
def load_page (st : FsState) (page_id : String) :
    Except StoreError (PageMeta × String) :=
  let safe_id := sanitize_page_id page_id
  match lookupDir st safe_id with
  | none => .error (.ioErr "read meta.json")
  | some d =>
    match d.meta with
    | none => .error (.ioErr "read meta.json")
    | some m =>
      match d.html with
      | none => .error (.ioErr "read index.html")
      | some h => .ok (m, h)

/-- create_page_auto_uid from src/store.rs lines 66-74. -/
def create_page_auto_uid (env : Env) (st : FsState) (meta : PageMeta)
    (html : String) : Except StoreError PageMeta × FsState :=
  let p := load_index st
  let index := p.1
  let st := p.2
  match generate_unique_page_uid index env.rand with
  | .error e => (.error e, st)
  | .ok uid =>
    let meta_with_uid := { meta with page_uid := uid }
    match create_page env st uid meta_with_uid html with
    | (.error e, st) => (.error e, st)
    | (.ok (), st) =>
      match load_page st uid with
      | .error e => (.error e, st)
      | .ok (saved_meta, _) => (.ok saved_meta, st)

/-- resolve_page_id_by_uid from src/store.rs lines 76-92: fast path on the
uid as a directory id, then a linear scan over the index entries. -/
def resolve_page_id_by_uid (st : FsState) (page_uid : String) :
    Option String × FsState :=
  let p := load_index st
  let index := p.1
  let st := p.2
  if (mapLookup page_uid index.pages).isSome then (some page_uid, st)
  else
    ((index.pages.find? (fun q => q.2.page_uid = page_uid)).map
      (fun q => q.1), st)

/-- update_page_meta from src/store.rs lines 221-298: rewrites meta.json
with the uid and created_at precedence chains and refreshes the index
entry; never touches index.html. -/
def update_page_meta (env : Env) (st : FsState) (page_id : String)
    (meta : PageMeta) : Except StoreError Unit × FsState :=
  let p0 := page_exists st page_id
  if !p0.1 then (.error (.notFound page_id), p0.2)
  else
    let st := p0.2
    let safe_id := sanitize_page_id page_id
    let p := load_index st
    let index := p.1
    let st := p.2
    let existing_meta := (lookupDir st safe_id).bind (fun d => d.meta)
    let existing_uid :=
      (existing_meta.map (fun v => v.page_uid)).bind
        (fun uid => if uid = "" then none else some uid)
    let index_uid :=
      ((mapLookup safe_id index.pages).map (fun e => e.page_uid)).bind
        (fun uid => if uid = "" then none else some uid)
    let fallback_uid := if meta.page_uid = "" then none else some meta.page_uid
    let page_uid_res : Except StoreError String :=
      match optOr (optOr existing_uid index_uid) fallback_uid with
      | some uid => .ok uid
      | none => generate_unique_page_uid index env.rand
    match page_uid_res with
    | .error e => (.error e, st)
    | .ok page_uid =>
      let now_ts := env.now
      let existing_created_at :=
        (existing_meta.map (fun v => v.created_at)).bind
          (fun v => if 0 < v then some v else none)
      let fallback_created_at :=
        if 0 < meta.created_at then some meta.created_at else none
      let created_at :=
        (optOr existing_created_at fallback_created_at).getD now_ts
      let meta_to_write :=
        { meta with page_uid := page_uid, created_at := created_at,
                    updated_at := now_ts }
      let st := writeMeta st safe_id meta_to_write
      let original_id := resolveOriginalId index safe_id page_id
      let entry : PageIndexEntry :=
        ⟨safe_id, meta_to_write.seo, page_uid, original_id⟩
      let st := save_index st ⟨mapInsert safe_id entry index.pages⟩
      (.ok (), st)

/-- update_page_html from src/store.rs lines 300-361: validates before any
write, writes index.html, then rewrites meta.json with updated_at
refreshed (and the uid backfilled when empty) and refreshes the index
entry. -/
def update_page_html (env : Env) (st : FsState) (page_id : String)
    (html : String) : Except StoreError Unit × FsState :=
  let p0 := page_exists st page_id
  if !p0.1 then (.error (.notFound page_id), p0.2)
  else
    let st := p0.2
    let safe_id := sanitize_page_id page_id
    match validate_html html with
    | .error msg => (.error (.validation msg), st)
    | .ok () =>
      let st := writeHtml st safe_id html
      match (lookupDir st safe_id).bind (fun d => d.meta) with
      | none => (.error (.ioErr "read meta.json"), st)
      | some meta0 =>
        let p := load_index st
        let index := p.1
        let st := p.2
        let now_ts := env.now
        let index_uid :=
          ((mapLookup safe_id index.pages).map (fun e => e.page_uid)).bind
            (fun uid => if uid = "" then none else some uid)
        let meta_uid :=
          if meta0.page_uid = "" then none else some meta0.page_uid
        let page_uid_res : Except StoreError String :=
          match optOr meta_uid index_uid with
          | some uid => .ok uid
          | none => generate_unique_page_uid index env.rand
        match page_uid_res with
        | .error e => (.error e, st)
        | .ok page_uid =>
          let meta1 :=
            { meta0 with
              created_at :=
                if meta0.created_at ≤ 0 then now_ts else meta0.created_at,
              updated_at := now_ts,
              page_uid := page_uid }
          let st := writeMeta st safe_id meta1
          let original_id := resolveOriginalId index safe_id page_id
          let entry : PageIndexEntry :=
            ⟨safe_id, meta1.seo, page_uid, original_id⟩
          let st := save_index st ⟨mapInsert safe_id entry index.pages⟩
          (.ok (), st)

/-- escape_html from src/web.rs. -/
def escapeHtml (l : List Char) : List Char :=
  l.flatMap (fun ch =>
    if ch = '&' then "&amp;".toList
    else if ch = '<' then "&lt;".toList
    else if ch = '>' then "&gt;".toList
    else [ch])

/-- escape_html_attr from src/web.rs. -/
def escapeHtmlAttr (l : List Char) : List Char :=
  l.flatMap (fun ch =>
    if ch = '&' then "&amp;".toList
    else if ch = '<' then "&lt;".toList
    else if ch = '>' then "&gt;".toList
    else if ch = '"' then "&quot;".toList
    else if ch = '\'' then "&#39;".toList
    else [ch])

/-- str::eq_ignore_ascii_case. -/
def eqIgnoreAsciiCase (a b : String) : Bool :=
  lowerStr a = lowerStr b

/-- parse_tag_name_ci from src/web.rs: skip whitespace, skip one leading
slash, read the name run; None when empty. -/
def parse_tag_name_ci (l : List Char) (index : Nat) : Option (String × Nat) :=
  let s := skipWs l index
  let s2 := if decide (s < l.length) && l.getD s ' ' == '/' then s + 1 else s
  let e := nameEnd l s2
  if s2 = e then none
  else some (String.mk ((l.drop s2).take (e - s2)), e)

/-- Scan of find_html_tag_end, walking the suffix whose head sits at
absolute index i.  When a tag named html is found the source returns
immediately with the result of find_tag_end, even when that is None. -/
def findHtmlTagEndAux (l : List Char) : List Char → Nat → Option Nat
  | [], _ => none
  | c :: rest, i =>
    if c = '<' then
      match parse_tag_name_ci l (i + 1) with
      | some (name, after_name) =>
        if eqIgnoreAsciiCase name "html" then
          (find_tag_end l after_name).map (fun v => v + 1)
        else findHtmlTagEndAux l rest (i + 1)
      | none => findHtmlTagEndAux l rest (i + 1)
    else findHtmlTagEndAux l rest (i + 1)

/-- find_html_tag_end from src/web.rs. -/
def find_html_tag_end (l : List Char) : Option Nat :=
  findHtmlTagEndAux l l 0

/-- The head-locating loop inside inject_seo_meta (src/web.rs lines
227-243): the first head tag with a terminated open tag and a later
case-insensitive closing "</head" yields (content_start, close_start);
candidates failing either lookup are skipped and the scan continues. -/
def findHeadRangeAux (l : List Char) : List Char → Nat → Option (Nat × Nat)
  | [], _ => none
  | c :: rest, i =>
    if c = '<' then
      match parse_tag_name_ci l (i + 1) with
      | some (name, after_name) =>
        if lowerStr name = "head" then
          match find_tag_end l after_name with
          | some e =>
            match find_bytes_ci l (e + 1) "</head".toList with
            | some close_start => some (e + 1, close_start)
            | none => findHeadRangeAux l rest (i + 1)
          | none => findHeadRangeAux l rest (i + 1)
        else findHeadRangeAux l rest (i + 1)
      | none => findHeadRangeAux l rest (i + 1)
    else findHeadRangeAux l rest (i + 1)

/-- The head range of a document per inject_seo_meta's own scan. -/
def find_head_range (l : List Char) : Option (Nat × Nat) :=
  findHeadRangeAux l l 0

/-- is_meta_named from src/web.rs: lowercase the tag, find the first
occurrence of "name", take the value after the equals sign (tolerating
double, single or no quotes) and compare with the lowercased name. -/
def is_meta_named (tag_html : List Char) (name : String) : Bool :=
  let lower := tag_html.map toLowerAscii
  let name_lower := name.toList.map toLowerAscii
  match find_bytes lower 0 "name".toList with
  | none => false
  | some pos =>
    let after := lower.drop (pos + 4)
    match after.findIdx? (fun c => c = '=') with
    | none => false
    | some eq_pos =>
      let value := (after.drop (eq_pos + 1)).dropWhile rustIsWhitespace
      match value with
      | '"' :: v =>
        match v.findIdx? (fun c => c = '"') with
        | some e => v.take e = name_lower
        | none => false
      | '\'' :: v =>
        match v.findIdx? (fun c => c = '\'') with
        | some e => v.take e = name_lower
        | none => false
      | _ =>
        value.takeWhile (fun ch => !(rustIsWhitespace ch || ch = '>'))
          = name_lower

/-- Main loop of remove_head_seo_tags.  Fuel bounds the iteration count as
in validateLoop; each step either emits the current character and advances
by one, or skips a stripped title or meta element (always advancing), so
length + 1 fuel is never exhausted.  The source pushes bytes cast to
chars; the model keeps the character. -/
def removeHeadSeoAux (l : List Char) : Nat → Nat → List Char
  | 0, _ => []
  | fuel + 1, i =>
    if l.length ≤ i then []
    else
      let c := l.getD i ' '
      if c != '<' then c :: removeHeadSeoAux l fuel (i + 1)
      else
        match parse_tag_name_ci l (i + 1) with
        | none => c :: removeHeadSeoAux l fuel (i + 1)
        | some (name, after_name) =>
          let lower := lowerStr name
          if lower = "title" then
            match find_tag_end l after_name with
            | some tag_end =>
              match find_bytes_ci l (tag_end + 1) "</title".toList with
              | some close_start =>
                match find_tag_end l (close_start + 2) with
                | some close_end => removeHeadSeoAux l fuel (close_end + 1)
                | none => c :: removeHeadSeoAux l fuel (i + 1)
              | none => c :: removeHeadSeoAux l fuel (i + 1)
            | none => c :: removeHeadSeoAux l fuel (i + 1)
          else if lower = "meta" then
            match find_tag_end l after_name with
            | some tag_end =>
              let tag_html := (l.drop i).take (tag_end + 1 - i)
              if is_meta_named tag_html "description"
                  || is_meta_named tag_html "keywords" then
                removeHeadSeoAux l fuel (tag_end + 1)
              else c :: removeHeadSeoAux l fuel (i + 1)
            | none => c :: removeHeadSeoAux l fuel (i + 1)
          else c :: removeHeadSeoAux l fuel (i + 1)

/-- remove_head_seo_tags from src/web.rs. -/
def remove_head_seo_tags (head_html : List Char) : List Char :=
  removeHeadSeoAux head_html (head_html.length + 1) 0

/-- The SEO tags inject_seo_meta prepends: escaped title element, escaped
description meta, and (when keywords are present and not
whitespace-blank) escaped keywords meta. -/
def seoAdditions (title : String) (seo : SeoMeta) : List Char :=
  let escaped_title := escapeHtml title.toList
  let escaped_description := escapeHtmlAttr seo.description.toList
  let keywords : Option (List Char) :=
    match seo.keywords with
    | none => none
    | some items =>
      let joined := String.intercalate ", " items
      if joined.toList.all rustIsWhitespace then none
      else some (escapeHtmlAttr joined.toList)
  "<title>".toList ++ escaped_title ++ "</title>".toList ++
    "<meta name=\"description\" content=\"".toList ++
    escaped_description ++ "\">".toList ++
    (match keywords with
     | some kw =>
       "<meta name=\"keywords\" content=\"".toList ++ kw ++ "\">".toList
     | none => [])

/-- inject_seo_meta from src/web.rs lines 200-274: clean and prepend
inside an existing head, else synthesize a head after the html open tag,
before the body tag, or at the very front. -/
def inject_seo_meta (html : List Char) (title : String) (seo : SeoMeta) :
    List Char :=
  let additions := seoAdditions title seo
  match find_head_range html with
  | some (s, e) =>
    html.take s ++ additions ++
      remove_head_seo_tags ((html.drop s).take (e - s)) ++ html.drop e
  | none =>
    match find_html_tag_end html with
    | some insert_at =>
      html.take insert_at ++ "<head>".toList ++ additions ++
        "</head>".toList ++ html.drop insert_at
    | none =>
      match find_bytes_ci html 0 "<body".toList with
      | some body_pos =>
        html.take body_pos ++ "<head>".toList ++ additions ++
          "</head>".toList ++ html.drop body_pos
      | none => "<head>".toList ++ additions ++ "</head>".toList ++ html

/-- The head content of a document, extracted by the injector's own
head-locating scan (used to state what "the resulting head" holds). -/
def headContent (l : List Char) : Option (List Char) :=
  (find_head_range l).map (fun p => (l.drop p.1).take (p.2 - p.1))

/-- Number of suffix positions where the needle is a prefix: the count of
occurrences of the substring. -/
def countSubAux (needle : List Char) : List Char → Nat
  | [] => 0
  | c :: rest =>
    (if needle.isPrefixOf (c :: rest) then 1 else 0) + countSubAux needle rest

/-- Number of positions where a substring occurs. -/
def countSub (hay needle : List Char) : Nat :=
  countSubAux needle hay

/-- Whether the injector emits a keywords meta: keywords present and not
whitespace-blank after joining (the condition in inject_seo_meta). -/
def keywordsPresent (seo : SeoMeta) : Bool :=
  match seo.keywords with
  | none => false
  | some items =>
    !((String.intercalate ", " items).toList.all rustIsWhitespace)

/-- The meta.json contents of a page, as load_page addresses it. -/
def storedMeta (st : FsState) (page_id : String) : Option PageMeta :=
  (lookupDir st (sanitize_page_id page_id)).bind (fun d => d.meta)

/-- The index.html contents of a page. -/
def storedHtml (st : FsState) (page_id : String) : Option String :=
  (lookupDir st (sanitize_page_id page_id)).bind (fun d => d.html)

/-- One update call against a fixed page: full, metadata-only or
HTML-only, each with the environment of its invocation. -/
inductive UpdateCall where
  | full (env : Env) (meta : PageMeta) (html : String)
  | metaOnly (env : Env) (meta : PageMeta)
  | htmlOnly (env : Env) (html : String)

/-- Dispatch one update call. -/
def applyUpdate (st : FsState) (page_id : String) :
    UpdateCall → Except StoreError Unit × FsState
  | .full env meta html => update_page env st page_id meta html
  | .metaOnly env meta => update_page_meta env st page_id meta
  | .htmlOnly env html => update_page_html env st page_id html

/-- Run a sequence of update calls, keeping the state each leaves behind
whether it succeeds or fails. -/
def runUpdates (page_id : String) : FsState → List UpdateCall → FsState
  | st, [] => st
  | st, call :: calls => runUpdates page_id (applyUpdate st page_id call).2 calls

/-- The clock value of one update call. -/
def callNow : UpdateCall → Int
  | .full env _ _ => env.now
  | .metaOnly env _ => env.now
  | .htmlOnly env _ => env.now

/-- A deterministic environment for concrete runs: clock at 50, random
bytes all zero (so every uid candidate is sixteen letters A). -/
def cexEnv50 : Env := ⟨50, fun _ => List.replicate 16 0⟩

/-- A later clock for concrete runs. -/
def cexEnv99 : Env := ⟨99, fun _ => List.replicate 16 0⟩

/-- The empty store with a readable empty index. -/
def cexStore0 : FsState := ⟨[], some ⟨[]⟩⟩

/-- A caller-supplied metadata value with uid u1 and no timestamps. -/
def cexMeta : PageMeta := ⟨⟨"T", "D", none, []⟩, "u1", 0, 0, []⟩

/-- A caller-supplied metadata value carrying the future timestamp 100. -/
def cexMetaFuture : PageMeta := ⟨⟨"T", "D", none, []⟩, "u1", 100, 0, []⟩

/-- The store after creating page p1 at time 50. -/
def cexStoreP : FsState :=
  (create_page cexEnv50 cexStore0 "p1" cexMeta "<p>ok</p>").2

/-- A store whose page directory abc holds a page whose page_uid is zzz:
the directory id and the uid disagree. -/
def cexStore7 : FsState :=
  ⟨[("abc", ⟨some ⟨⟨"T", "D", none, []⟩, "zzz", 5, 5, []⟩, some "<p>x</p>"⟩)],
   some ⟨[("abc", ⟨"abc", ⟨"T", "D", none, []⟩, "zzz", none⟩)]⟩⟩

/-- A page in good standing: stored under its sanitized directory id with
a nonempty uid u, a positive creation time c, and a readable index file.
This is the state every successful persist leaves behind. -/
def GoodPage (st : FsState) (page_id : String) (c : Int) (u : String) : Prop :=
  u ≠ "" ∧ 0 < c ∧ (∃ idx, st.indexFile = some idx) ∧
  ∃ m, storedMeta st page_id = some m ∧ m.page_uid = u ∧ m.created_at = c

/-! Theorems.  General list and string helper lemmas come first, then one
theorem per claim (with its witness or counterexample where needed). -/

/-- String append distributes over toList. -/
theorem toList_append (s t : String) : (s ++ t).toList = s.toList ++ t.toList := by
  cases s; cases t; rfl

/-- Rebuilding a string from its characters is the identity. -/
theorem mk_toList (s : String) : String.mk s.toList = s := by
  cases s; rfl

/-- The characters of a rebuilt string. -/
@[simp] theorem toList_mk (l : List Char) : (String.mk l).toList = l := rfl

/-- A string is empty exactly when its character list is. -/
theorem toList_eq_nil (s : String) : s.toList = [] ↔ s = "" := by
  cases s with
  | mk data =>
    constructor
    · intro h; simp only [String.toList] at h; simp [h]
    · intro h; rw [h]; rfl

/-- takeWhile of a list all of whose elements pass, followed by a failing
element, stops exactly at the failing element. -/
theorem takeWhile_append_stop (p : Char → Bool) (xs : List Char) (y : Char)
    (ys : List Char) (hxs : ∀ c ∈ xs, p c) (hy : ¬p y) :
    (xs ++ y :: ys).takeWhile p = xs := by
  induction xs with
  | nil => simp [List.takeWhile, hy]
  | cons c rest ih =>
    have hc : p c := hxs c (by simp)
    simp only [List.cons_append, List.takeWhile, hc, List.append_eq]
    rw [ih (fun d hd => hxs d (by simp [hd]))]

/-- The segment after the last plus of a plus-free list is the list. -/
theorem rsplitLastPlus_no_plus (l : List Char) (h : '+' ∉ l) :
    rsplitLastPlus l = l := by
  unfold rsplitLastPlus
  rw [List.takeWhile_eq_self_iff.mpr, List.reverse_reverse]
  intro c hc
  simp only [ne_eq, decide_eq_true_eq]
  intro hcp
  exact h (by simpa [hcp] using List.mem_reverse.mp hc)

/-- The segment after the last plus of (a ++ plus ++ b) with plus-free b
is b. -/
theorem rsplitLastPlus_append (a b : List Char) (h : '+' ∉ b) :
    rsplitLastPlus (a ++ '+' :: b) = b := by
  unfold rsplitLastPlus
  rw [List.reverse_append, List.reverse_cons]
  rw [List.append_assoc, List.singleton_append]
  rw [takeWhile_append_stop _ b.reverse '+' _
    (fun c hc => by
      simp only [ne_eq, decide_eq_true_eq]
      intro hcp
      exact h (by simpa [hcp] using List.mem_reverse.mp hc))
    (by simp)]
  exact List.reverse_reverse b

/-- C6: the validator accepts the three well-formed samples, rejects the
empty, unclosed and mismatched samples, and rejects every string that
contains a literal NUL character (when the whole string is whitespace or
NUL it is rejected as empty, otherwise the NUL scan reports it). -/
theorem c6_validate_html_cases :
    validate_html "<p>ok</p>" = .ok () ∧
    validate_html "<br>" = .ok () ∧
    validate_html "<script>if (a < b) \x7b\x7d</script>" = .ok () ∧
    (∃ m, validate_html "" = .error m) ∧
    (∃ m, validate_html "<p>unclosed" = .error m) ∧
    (∃ m, validate_html "<div><span></div></span>" = .error m) ∧
    (∀ html : String, Char.ofNat 0 ∈ html.toList →
      ∃ m, validate_html html = .error m) := by
  refine ⟨by decide, by decide, by decide,
    ⟨"html is empty or whitespace", by decide⟩,
    ⟨"unclosed tag <p> starting at index 0", by decide⟩,
    ⟨"mismatched closing tag </div> at index 11, expected </span> for tag opened at index 5", by decide⟩,
    ?_⟩
  intro html h
  unfold validate_html
  by_cases hall : html.toList.all rustIsWhitespace
  · exact ⟨"html is empty or whitespace", by rw [if_pos hall]⟩
  · rw [if_neg hall]
    cases hfind : html.toList.findIdx? (fun c => c = Char.ofNat 0) with
    | some pos => exact ⟨s!"html contains NUL byte at index {pos}", rfl⟩
    | none =>
      rw [List.findIdx?_eq_none_iff] at hfind
      have h2 := hfind _ h
      simp at h2

/-- Witness for C6: the NUL rejection applied at the concrete input. -/
theorem c6_validate_html_cases_witness :
    ∃ m, validate_html "a\x00b" = .error m :=
  c6_validate_html_cases.2.2.2.2.2.2 "a\x00b" (by decide)

/-- C9 counterexample: for the empty id (which contains no plus sign) and
title t, the slug behind the "/pages/" prefix of the built URL is "t+",
which parses to None rather than recovering the id. -/
theorem c9_roundtrip_counterexample :
    ('+' ∉ "".toList) ∧
    parse_page_id_from_slug (url_slug (build_page_url "" "t")) = none ∧
    parse_page_id_from_slug (url_slug (build_page_url "" "t")) ≠ some "" := by
  decide

/-- The segment after the last plus is empty exactly for the empty list or
a list ending in a plus sign. -/
theorem rsplitLastPlus_eq_nil (l : List Char) :
    rsplitLastPlus l = [] ↔ l = [] ∨ l.getLast? = some '+' := by
  unfold rsplitLastPlus
  rw [List.reverse_eq_nil_iff, ← List.head?_reverse]
  cases hv : l.reverse with
  | nil =>
    simp [List.takeWhile, List.reverse_eq_nil_iff.mp hv]
  | cons c rest =>
    have hl : l ≠ [] := by
      intro h
      rw [h] at hv
      simp at hv
    by_cases hc : c = '+'
    · subst hc
      simp [List.takeWhile, hl]
    · simp [List.takeWhile, hc, hl]

/-- C9 amended: parse_page_id_from_slug returns the segment after the last
plus sign; a slug with no plus sign parses to itself; None is returned
exactly when the slug is empty or ends in a plus sign; and for every
NON-EMPTY id without a plus sign and every title, parsing the slug behind
the "/pages/" prefix of build_page_url recovers the id. -/
theorem c9_parse_slug_amended (slug id title : String) :
    (('+' ∉ slug.toList) → slug ≠ "" → parse_page_id_from_slug slug = some slug) ∧
    (parse_page_id_from_slug slug = none ↔
      slug = "" ∨ slug.toList.getLast? = some '+') ∧
    (id ≠ "" → ('+' ∉ id.toList) →
      parse_page_id_from_slug (url_slug (build_page_url id title)) = some id) := by
  refine ⟨?_, ?_, ?_⟩
  · intro hnp hne
    cases slug with
    | mk l =>
      have hl : l ≠ [] := by
        intro h
        exact hne (by subst h; rfl)
      unfold parse_page_id_from_slug
      simp only [toList_mk]
      rw [rsplitLastPlus_no_plus _ (by simpa using hnp)]
      rw [if_neg (by simpa [List.isEmpty_iff] using hl)]
  · cases slug with
    | mk l =>
      have hstr : (String.mk l = "") ↔ l = [] := by
        constructor
        · intro h
          exact congrArg String.data h
        · intro h
          rw [h]
      unfold parse_page_id_from_slug
      simp only [toList_mk]
      by_cases he : (rsplitLastPlus l).isEmpty
      · rw [if_pos he]
        rw [List.isEmpty_iff] at he
        simp only [true_iff]
        rw [hstr]
        exact (rsplitLastPlus_eq_nil l).mp he
      · rw [if_neg he]
        rw [List.isEmpty_iff] at he
        simp only [reduceCtorEq, false_iff]
        rw [hstr]
        intro hcase
        exact he ((rsplitLastPlus_eq_nil l).mpr hcase)
  · intro hne hnp
    have hl : id.toList ≠ [] := by
      intro h
      exact hne ((toList_eq_nil id).mp h)
    unfold build_page_url url_slug parse_page_id_from_slug
    by_cases ht : title.isEmpty
    · rw [if_pos ht]
      rw [toList_append]
      rw [show (7 : Nat) = ("/pages/" : String).toList.length from by decide,
        List.drop_left]
      simp only [toList_mk]
      rw [rsplitLastPlus_no_plus _ hnp]
      rw [if_neg (by simpa [List.isEmpty_iff] using hl)]
      rw [mk_toList]
    · rw [if_neg ht]
      rw [toList_append, toList_append, toList_append]
      rw [show ("+" : String).toList = ['+'] from by decide]
      rw [List.append_assoc, List.append_assoc, List.singleton_append]
      rw [show (7 : Nat) = ("/pages/" : String).toList.length from by decide,
        List.drop_left]
      simp only [toList_mk]
      rw [rsplitLastPlus_append _ _ hnp]
      rw [if_neg (by simpa [List.isEmpty_iff] using hl)]
      rw [mk_toList]

/-- Witness for C9 amended at concrete slugs, the id abc and a title that
itself contains a plus sign. -/
theorem c9_parse_slug_amended_witness :
    parse_page_id_from_slug "mya" = some "mya" ∧
    (parse_page_id_from_slug "t+" = none ↔
      ("t+" : String) = "" ∨ ("t+" : String).toList.getLast? = some '+') ∧
    parse_page_id_from_slug (url_slug (build_page_url "abc" "x+y")) = some "abc" :=
  ⟨(c9_parse_slug_amended "mya" "abc" "x+y").1 (by decide) (by decide),
   (c9_parse_slug_amended "t+" "abc" "x+y").2.1,
   (c9_parse_slug_amended "mya" "abc" "x+y").2.2 (by decide) (by decide)⟩

/-- The attempt loop fails exactly when the next fuel candidates all
collide. -/
theorem genUidLoop_error (index : StoreIndex) (rand : Nat → RandBytes) :
    ∀ fuel start e, genUidLoop index rand fuel start = .error e ↔
      e = .uidExhausted ∧
        ∀ i < fuel, uidCollides index (generate_page_uid (rand (start + i))) := by
  intro fuel
  induction fuel with
  | zero =>
    intro start e
    simp [genUidLoop]
    exact eq_comm
  | succ n ih =>
    intro start e
    unfold genUidLoop
    by_cases hc : uidCollides index (generate_page_uid (rand start))
    · rw [if_pos hc]
      rw [ih (start + 1) e]
      constructor
      · rintro ⟨he, hall⟩
        refine ⟨he, ?_⟩
        intro i hi
        cases i with
        | zero => simpa using hc
        | succ j =>
          have := hall j (by omega)
          simpa [Nat.add_comm, Nat.add_assoc, Nat.add_left_comm] using this
      · rintro ⟨he, hall⟩
        refine ⟨he, ?_⟩
        intro i hi
        have := hall (i + 1) (by omega)
        simpa [Nat.add_comm, Nat.add_assoc, Nat.add_left_comm] using this
    · rw [if_neg hc]
      simp only [reduceCtorEq, false_iff, not_and]
      intro _
      intro hall
      exact hc (by simpa using hall 0 (by omega))

/-- The attempt loop succeeds with the first non-colliding candidate among
the next fuel ones. -/
theorem genUidLoop_ok (index : StoreIndex) (rand : Nat → RandBytes) :
    ∀ fuel start u, genUidLoop index rand fuel start = .ok u ↔
      ∃ j < fuel, u = generate_page_uid (rand (start + j)) ∧
        ¬uidCollides index u ∧
        ∀ i < j, uidCollides index (generate_page_uid (rand (start + i))) := by
  intro fuel
  induction fuel with
  | zero =>
    intro start u
    simp [genUidLoop]
  | succ n ih =>
    intro start u
    unfold genUidLoop
    by_cases hc : uidCollides index (generate_page_uid (rand start))
    · rw [if_pos hc]
      rw [ih (start + 1) u]
      constructor
      · rintro ⟨j, hj, hu, hnc, hall⟩
        refine ⟨j + 1, by omega, by simpa [Nat.add_comm, Nat.add_assoc, Nat.add_left_comm] using hu, hnc, ?_⟩
        intro i hi
        cases i with
        | zero => simpa using hc
        | succ k =>
          have := hall k (by omega)
          simpa [Nat.add_comm, Nat.add_assoc, Nat.add_left_comm] using this
      · rintro ⟨j, hj, hu, hnc, hall⟩
        cases j with
        | zero =>
          exfalso
          rw [hu] at hnc
          simp only [Nat.add_zero] at hnc
          exact hnc hc
        | succ k =>
          refine ⟨k, by omega, by simpa [Nat.add_comm, Nat.add_assoc, Nat.add_left_comm] using hu, hnc, ?_⟩
          intro i hi
          have := hall (i + 1) (by omega)
          simpa [Nat.add_comm, Nat.add_assoc, Nat.add_left_comm] using this
    · rw [if_neg hc]
      constructor
      · intro h
        have hu : u = generate_page_uid (rand start) := by
          simpa using h.symm
        exact ⟨0, by omega, by simpa using hu, by rw [hu]; simpa using hc,
          by intro i hi; omega⟩
      · rintro ⟨j, hj, hu, hnc, hall⟩
        cases j with
        | zero =>
          simp only [Nat.add_zero] at hu
          rw [hu]
        | succ k =>
          exfalso
          exact hc (by simpa using hall 0 (by omega))

/-- C8: every candidate has length 16 (given 16 random bytes) over the
62-character alphanumeric alphabet; the generator succeeds exactly with
the first of the at most 8 candidates colliding with no indexed page_uid,
and fails with UidExhausted exactly when all 8 candidates collide.  The
generator reads only the index snapshot and the random source, so it has
no effect on the store. -/
theorem c8_generate_unique_page_uid (index : StoreIndex)
    (rand : Nat → RandBytes) (hlen : ∀ i, (rand i).length = 16) :
    (∀ i, (generate_page_uid (rand i)).length = 16 ∧
      ∀ c ∈ (generate_page_uid (rand i)).toList, c ∈ PAGE_UID_ALPHABET) ∧
    (generate_unique_page_uid index rand = .error .uidExhausted ↔
      ∀ i < 8, uidCollides index (generate_page_uid (rand i))) ∧
    (∀ u, generate_unique_page_uid index rand = .ok u ↔
      ∃ j < 8, u = generate_page_uid (rand j) ∧ ¬uidCollides index u ∧
        ∀ i < 8, i < j → uidCollides index (generate_page_uid (rand i))) := by
  refine ⟨?_, ?_, ?_⟩
  · intro i
    constructor
    · show (String.mk ((rand i).map _)).length = 16
      show ((rand i).map _).length = 16
      rw [List.length_map]
      exact hlen i
    · intro c hc
      rw [show (generate_page_uid (rand i)).toList
          = (rand i).map (fun b => PAGE_UID_ALPHABET.getD (b % 62) 'A') from rfl] at hc
      rcases List.mem_map.mp hc with ⟨b, _, hb⟩
      rw [← hb]
      have hlt : b % 62 < PAGE_UID_ALPHABET.length := by
        have : b % 62 < 62 := Nat.mod_lt _ (by omega)
        simpa [PAGE_UID_ALPHABET] using this
      rw [List.getD_eq_getElem _ _ hlt]
      exact List.getElem_mem hlt
  · rw [show generate_unique_page_uid index rand = genUidLoop index rand 8 0 from rfl]
    rw [genUidLoop_error index rand 8 0 .uidExhausted]
    simp
  · intro u
    rw [show generate_unique_page_uid index rand = genUidLoop index rand 8 0 from rfl]
    rw [genUidLoop_ok index rand 8 0 u]
    constructor
    · rintro ⟨j, hj, hu, hnc, hall⟩
      exact ⟨j, hj, by simpa using hu, hnc, fun i _ hij => by simpa using hall i hij⟩
    · rintro ⟨j, hj, hu, hnc, hall⟩
      exact ⟨j, hj, by simpa using hu, hnc, fun i hij => by simpa using hall i (by omega) hij⟩

/-- Witness for C8 on the empty index with an all-zero random source: the
first candidate, sixteen letters A, is returned. -/
theorem c8_generate_unique_page_uid_witness :
    generate_unique_page_uid ⟨[]⟩ (fun _ => List.replicate 16 0) =
      .ok "AAAAAAAAAAAAAAAA" :=
  ((c8_generate_unique_page_uid ⟨[]⟩ (fun _ => List.replicate 16 0)
      (fun _ => rfl)).2.2 "AAAAAAAAAAAAAAAA").mpr
    ⟨0, by omega, by decide, by decide, fun i _ h => absurd h (by omega)⟩

/-- C1: demonstration of the code bug at a concrete failing input.
Creating page p1 on an empty store with html "" (which fails validation)
returns the validation error, yet the on-disk state has changed: the page
directory was created and meta.json written before validate_html ran
(save_page writes the metadata first and validates afterwards), so only
the HTML file and the index entry were withheld. -/
theorem c1_meta_written_despite_validation_failure :
    (create_page cexEnv50 cexStore0 "p1" cexMeta "").1
        = .error (.validation "html is empty or whitespace") ∧
    storedMeta (create_page cexEnv50 cexStore0 "p1" cexMeta "").2 "p1"
        = some ⟨⟨"T", "D", none, []⟩, "u1", 50, 50, []⟩ ∧
    storedHtml (create_page cexEnv50 cexStore0 "p1" cexMeta "").2 "p1" = none ∧
    (create_page cexEnv50 cexStore0 "p1" cexMeta "").2.indexFile
        = cexStore0.indexFile ∧
    (create_page cexEnv50 cexStore0 "p1" cexMeta "").2 ≠ cexStore0 := by
  decide

/-- C7 counterexample: in a store whose directory abc holds the page with
page_uid zzz, no page has page_uid abc, yet resolve_page_id_by_uid abc
returns Some abc through the fast path that trusts the uid as a directory
id without checking the entry's page_uid. -/
theorem c7_resolve_counterexample :
    (∀ p ∈ (cexStore7.indexFile.getD ⟨[]⟩).pages, p.2.page_uid ≠ "abc") ∧
    (resolve_page_id_by_uid cexStore7 "abc").1 = some "abc" ∧
    (resolve_page_id_by_uid cexStore7 "abc").1 ≠ none := by
  decide

/-- C7 amended: with a readable index, resolve_page_id_by_uid leaves the
state unchanged and returns Some uid whenever the uid is itself an indexed
directory id (regardless of that entry's page_uid); otherwise it returns
the first directory id whose entry carries the uid, and None exactly when
the uid is neither an index key nor any entry's page_uid. -/
theorem c7_resolve_amended (st : FsState) (idx : StoreIndex) (uid : String)
    (hidx : st.indexFile = some idx) :
    (resolve_page_id_by_uid st uid).2 = st ∧
    ((mapLookup uid idx.pages).isSome →
      (resolve_page_id_by_uid st uid).1 = some uid) ∧
    (mapLookup uid idx.pages = none →
      (resolve_page_id_by_uid st uid).1 =
        (idx.pages.find? (fun q => q.2.page_uid = uid)).map (fun q => q.1)) ∧
    ((resolve_page_id_by_uid st uid).1 = none ↔
      mapLookup uid idx.pages = none ∧ ∀ p ∈ idx.pages, p.2.page_uid ≠ uid) := by
  have hload : load_index st = (idx, st) := by
    unfold load_index
    rw [hidx]
  have hres : resolve_page_id_by_uid st uid =
      (if (mapLookup uid idx.pages).isSome then some uid
       else (idx.pages.find? (fun q => q.2.page_uid = uid)).map (fun q => q.1),
       st) := by
    unfold resolve_page_id_by_uid
    rw [hload]
    by_cases h : (mapLookup uid idx.pages).isSome <;> simp [h]
  refine ⟨?_, ?_, ?_, ?_⟩
  · rw [hres]
  · intro h
    rw [hres]
    simp [h]
  · intro h
    rw [hres]
    simp [h]
  · rw [hres]
    by_cases h : (mapLookup uid idx.pages).isSome
    · simp only [h, if_true]
      constructor
      · intro hc
        simp at hc
      · rintro ⟨hnone, _⟩
        rw [hnone] at h
        simp at h
    · rw [Option.not_isSome_iff_eq_none] at h
      simp only [h, Option.isSome_none, Bool.false_eq_true, if_false, true_and]
      simp [List.find?_eq_none]

/-- Witness for C7 amended at the concrete mismatched store. -/
theorem c7_resolve_amended_witness :
    (resolve_page_id_by_uid cexStore7 "zzz").1 =
      ((cexStore7.indexFile.getD ⟨[]⟩).pages.find?
        (fun q => q.2.page_uid = "zzz")).map (fun q => q.1) :=
  (c7_resolve_amended cexStore7 (cexStore7.indexFile.getD ⟨[]⟩) "zzz"
    rfl).2.2.1 (by decide)

/-- Setting a directory makes it the one looked up. -/
theorem lookupDir_setDir_self (st : FsState) (k : String) (d : PageDir) :
    lookupDir (setDir st k d) k = some d := by
  unfold lookupDir setDir
  simp only
  induction st.dirs with
  | nil => simp [setDirList]
  | cons p rest ih =>
    by_cases h : p.1 = k
    · simp [setDirList, h]
    · simp only [setDirList, if_neg h, List.find?]
      rw [show (decide (p.1 = k)) = false from by simp [h]]
      simpa using ih

/-- Setting a directory leaves the others unchanged. -/
theorem lookupDir_setDir_ne (st : FsState) (k k2 : String) (d : PageDir)
    (h : k2 ≠ k) : lookupDir (setDir st k d) k2 = lookupDir st k2 := by
  unfold lookupDir setDir
  simp only
  induction st.dirs with
  | nil => simp [setDirList, Ne.symm h]
  | cons p rest ih =>
    by_cases hp : p.1 = k
    · simp only [setDirList, if_pos hp, List.find?]
      rw [show (decide (k = k2)) = false from by simp [Ne.symm h]]
      rw [show (decide (p.1 = k2)) = false from by simp [hp, Ne.symm h]]
    · simp only [setDirList, if_neg hp, List.find?]
      cases hdec : decide (p.1 = k2) with
      | true => rfl
      | false => simpa using ih

/-- The index file is untouched by directory writes. -/
theorem indexFile_setDir (st : FsState) (k : String) (d : PageDir) :
    (setDir st k d).indexFile = st.indexFile := rfl

/-- ensureDir is the identity on an existing directory. -/
theorem ensureDir_of_some (st : FsState) (k : String)
    (h : (lookupDir st k).isSome) : ensureDir st k = st := by
  unfold ensureDir
  rw [if_pos h]

/-- load_index with a readable index file returns it and leaves the state
alone. -/
theorem load_index_of_some (st : FsState) (idx : StoreIndex)
    (h : st.indexFile = some idx) : load_index st = (idx, st) := by
  unfold load_index
  rw [h]

/-- page_exists holds (without state change) when the directory exists and
the index file is readable. -/
theorem page_exists_of_dir (st : FsState) (page_id : String)
    (idx : StoreIndex) (hidx : st.indexFile = some idx)
    (hdir : (lookupDir st (sanitize_page_id page_id)).isSome) :
    page_exists st page_id = (true, st) := by
  unfold page_exists
  rw [load_index_of_some st idx hidx]
  by_cases h : (mapLookup (sanitize_page_id page_id) idx.pages).isSome
  · simp [h]
  · simp [h, hdir]

/-- Exact behaviour of update_page_meta on an existing page with readable
index, nonempty stored uid and positive stored created_at: it rewrites
meta.json with the caller's fields, the preserved uid and created_at, and
the refreshed updated_at, then refreshes the index entry. -/
theorem update_page_meta_spec (env : Env) (st : FsState) (page_id : String)
    (meta : PageMeta) (d : PageDir) (m : PageMeta) (idx : StoreIndex)
    (hdir : lookupDir st (sanitize_page_id page_id) = some d)
    (hmeta : d.meta = some m)
    (huid : m.page_uid ≠ "") (hcreated : 0 < m.created_at)
    (hidx : st.indexFile = some idx) :
    update_page_meta env st page_id meta =
      (.ok (),
       save_index
         (writeMeta st (sanitize_page_id page_id)
           { meta with page_uid := m.page_uid, created_at := m.created_at,
                       updated_at := env.now })
         ⟨mapInsert (sanitize_page_id page_id)
           ⟨sanitize_page_id page_id, meta.seo, m.page_uid,
            resolveOriginalId idx (sanitize_page_id page_id) page_id⟩
           idx.pages⟩) := by
  unfold update_page_meta
  rw [page_exists_of_dir st page_id idx hidx (by simp [hdir])]
  simp only [Bool.not_true, Bool.false_eq_true, if_false]
  rw [load_index_of_some st idx hidx]
  simp only [hdir, Option.some_bind, hmeta, Option.map_some', if_neg huid,
    optOr, if_pos hcreated, Option.getD_some]

/-- Exact behaviour of save_page on an existing page (the update path):
meta.json is written with the preserved uid and created_at before the HTML
is validated; on validation failure the state keeps that write and nothing
else, on success the HTML and the index entry follow. -/
theorem save_page_existing_spec (env : Env) (st : FsState) (page_id : String)
    (meta : PageMeta) (html : String) (d : PageDir) (m : PageMeta)
    (idx : StoreIndex)
    (hdir : lookupDir st (sanitize_page_id page_id) = some d)
    (hmeta : d.meta = some m)
    (huid : m.page_uid ≠ "") (hcreated : 0 < m.created_at)
    (hidx : st.indexFile = some idx) :
    save_page env st page_id meta html =
      (match validate_html html with
       | .error msg =>
         (.error (.validation msg),
          writeMeta st (sanitize_page_id page_id)
            { meta with page_uid := m.page_uid, created_at := m.created_at,
                        updated_at := env.now })
       | .ok () =>
         (.ok (),
          save_index
            (writeHtml
              (writeMeta st (sanitize_page_id page_id)
                { meta with page_uid := m.page_uid,
                            created_at := m.created_at,
                            updated_at := env.now })
              (sanitize_page_id page_id) html)
            ⟨mapInsert (sanitize_page_id page_id)
              ⟨sanitize_page_id page_id, meta.seo, m.page_uid,
               resolveOriginalId idx (sanitize_page_id page_id) page_id⟩
              idx.pages⟩)) := by
  simp only [save_page]
  rw [ensureDir_of_some st _ (by simp [hdir])]
  rw [load_index_of_some st idx hidx]
  simp only [hdir, Option.some_bind, hmeta, Option.map_some', if_neg huid,
    optOr, if_pos hcreated, Option.getD_some]

/-- update_page on an existing page defers to save_page. -/
theorem update_page_spec (env : Env) (st : FsState) (page_id : String)
    (meta : PageMeta) (html : String) (idx : StoreIndex)
    (hdir : (lookupDir st (sanitize_page_id page_id)).isSome)
    (hidx : st.indexFile = some idx) :
    update_page env st page_id meta html = save_page env st page_id meta html := by
  unfold update_page
  rw [page_exists_of_dir st page_id idx hidx hdir]
  simp only [Bool.not_true, Bool.false_eq_true, if_false]

/-- update_page_html with invalid HTML fails before writing anything. -/
theorem update_page_html_spec_err (env : Env) (st : FsState)
    (page_id : String) (html : String) (idx : StoreIndex) (msg : String)
    (hdir : (lookupDir st (sanitize_page_id page_id)).isSome)
    (hidx : st.indexFile = some idx)
    (hval : validate_html html = .error msg) :
    update_page_html env st page_id html = (.error (.validation msg), st) := by
  unfold update_page_html
  rw [page_exists_of_dir st page_id idx hidx hdir]
  simp only [Bool.not_true, Bool.false_eq_true, if_false, hval]

/-- Exact behaviour of update_page_html on an existing page with valid
HTML: index.html is replaced, meta.json is rewritten with only updated_at
changed (uid nonempty and created_at positive are preserved), and the
index entry is refreshed. -/
theorem update_page_html_spec_ok (env : Env) (st : FsState)
    (page_id : String) (html : String) (d : PageDir) (m : PageMeta)
    (idx : StoreIndex)
    (hdir : lookupDir st (sanitize_page_id page_id) = some d)
    (hmeta : d.meta = some m)
    (huid : m.page_uid ≠ "") (hcreated : 0 < m.created_at)
    (hidx : st.indexFile = some idx)
    (hval : validate_html html = .ok ()) :
    update_page_html env st page_id html =
      (.ok (),
       save_index
         (writeMeta (writeHtml st (sanitize_page_id page_id) html)
           (sanitize_page_id page_id)
           { m with updated_at := env.now })
         ⟨mapInsert (sanitize_page_id page_id)
           ⟨sanitize_page_id page_id, m.seo, m.page_uid,
            resolveOriginalId idx (sanitize_page_id page_id) page_id⟩
           idx.pages⟩) := by
  unfold update_page_html
  rw [page_exists_of_dir st page_id idx hidx (by simp [hdir])]
  simp only [Bool.not_true, Bool.false_eq_true, if_false, hval]
  have hdir2 : lookupDir (writeHtml st (sanitize_page_id page_id) html)
      (sanitize_page_id page_id) = some { d with html := some html } := by
    unfold writeHtml
    rw [hdir]
    exact lookupDir_setDir_self st _ _
  have hidx2 : (writeHtml st (sanitize_page_id page_id) html).indexFile
      = some idx := by
    unfold writeHtml
    rw [indexFile_setDir]
    exact hidx
  rw [show (lookupDir (writeHtml st (sanitize_page_id page_id) html)
      (sanitize_page_id page_id)).bind (fun d => d.meta) = some m from by
    rw [hdir2]; simpa using hmeta]
  rw [load_index_of_some _ idx hidx2]
  simp only [if_neg huid, optOr]
  simp only [if_neg (by omega : ¬m.created_at ≤ 0)]

/-- Writing meta.json updates only that file of that directory. -/
theorem lookupDir_writeMeta_self (st : FsState) (k : String) (mtw : PageMeta) :
    lookupDir (writeMeta st k mtw) k =
      some { (lookupDir st k).getD ⟨none, none⟩ with meta := some mtw } := by
  unfold writeMeta
  exact lookupDir_setDir_self st k _

/-- Writing index.html updates only that file of that directory. -/
theorem lookupDir_writeHtml_self (st : FsState) (k : String) (h : String) :
    lookupDir (writeHtml st k h) k =
      some { (lookupDir st k).getD ⟨none, none⟩ with html := some h } := by
  unfold writeHtml
  exact lookupDir_setDir_self st k _

/-- Persisting the index changes no directory. -/
theorem lookupDir_save_index (st : FsState) (idx : StoreIndex) (k : String) :
    lookupDir (save_index st idx) k = lookupDir st k := rfl

/-- C4 counterexample: an HTML-only update on the concrete store rewrites
meta.json (its updated_at moves from 50 to the new clock 99), so the
metadata file does not stay unchanged. -/
theorem c4_html_update_rewrites_meta_counterexample :
    (update_page_html cexEnv99 cexStoreP "p1" "<p>v2</p>").1 = .ok () ∧
    (storedMeta cexStoreP "p1").map (fun m => m.updated_at) = some 50 ∧
    (storedMeta (update_page_html cexEnv99 cexStoreP "p1" "<p>v2</p>").2
      "p1").map (fun m => m.updated_at) = some 99 ∧
    storedMeta (update_page_html cexEnv99 cexStoreP "p1" "<p>v2</p>").2 "p1"
      ≠ storedMeta cexStoreP "p1" := by
  decide

/-- C4 amended: on an existing page (readable index, stored uid nonempty,
stored created_at positive) a metadata-only update leaves the HTML file
unchanged and an HTML-only update replaces only the HTML file plus the
updated_at field of meta.json; both preserve page_uid and created_at. -/
theorem c4_partial_update_frame_amended (env : Env) (st : FsState)
    (page_id : String) (meta2 : PageMeta) (html2 : String) (d : PageDir)
    (m : PageMeta) (idx : StoreIndex)
    (hdir : lookupDir st (sanitize_page_id page_id) = some d)
    (hmeta : d.meta = some m)
    (huid : m.page_uid ≠ "") (hcreated : 0 < m.created_at)
    (hidx : st.indexFile = some idx)
    (hval : validate_html html2 = .ok ()) :
    ((update_page_meta env st page_id meta2).1 = .ok () ∧
     storedHtml (update_page_meta env st page_id meta2).2 page_id =
       storedHtml st page_id ∧
     storedMeta (update_page_meta env st page_id meta2).2 page_id =
       some { meta2 with page_uid := m.page_uid, created_at := m.created_at,
                         updated_at := env.now }) ∧
    ((update_page_html env st page_id html2).1 = .ok () ∧
     storedHtml (update_page_html env st page_id html2).2 page_id =
       some html2 ∧
     storedMeta (update_page_html env st page_id html2).2 page_id =
       some { m with updated_at := env.now }) := by
  constructor
  · rw [update_page_meta_spec env st page_id meta2 d m idx hdir hmeta huid
      hcreated hidx]
    refine ⟨rfl, ?_, ?_⟩
    · unfold storedHtml
      rw [lookupDir_save_index, lookupDir_writeMeta_self, hdir]
      simp
    · unfold storedMeta
      rw [lookupDir_save_index, lookupDir_writeMeta_self, hdir]
      simp
  · rw [update_page_html_spec_ok env st page_id html2 d m idx hdir hmeta huid
      hcreated hidx hval]
    refine ⟨rfl, ?_, ?_⟩
    · unfold storedHtml
      rw [lookupDir_save_index, lookupDir_writeMeta_self,
        lookupDir_writeHtml_self, hdir]
      simp
    · unfold storedMeta
      rw [lookupDir_save_index, lookupDir_writeMeta_self,
        lookupDir_writeHtml_self, hdir]
      simp

/-- Witness for C4 amended at the concrete page p1. -/
theorem c4_partial_update_frame_amended_witness :
    storedHtml (update_page_meta cexEnv99 cexStoreP "p1" cexMeta).2 "p1" =
      storedHtml cexStoreP "p1" ∧
    storedMeta (update_page_html cexEnv99 cexStoreP "p1" "<p>v2</p>").2 "p1" =
      some { (⟨⟨"T", "D", none, []⟩, "u1", 50, 50, []⟩ : PageMeta) with
             updated_at := 99 } :=
  ⟨(c4_partial_update_frame_amended cexEnv99 cexStoreP "p1" cexMeta "<p>v2</p>"
      (⟨some ⟨⟨"T", "D", none, []⟩, "u1", 50, 50, []⟩, some "<p>ok</p>"⟩)
      ⟨⟨"T", "D", none, []⟩, "u1", 50, 50, []⟩
      (⟨[("p1", ⟨"p1", ⟨"T", "D", none, []⟩, "u1", none⟩)]⟩)
      (by decide) (by decide) (by decide) (by decide) (by decide)
      (by decide)).1.2.1,
   (c4_partial_update_frame_amended cexEnv99 cexStoreP "p1" cexMeta "<p>v2</p>"
      (⟨some ⟨⟨"T", "D", none, []⟩, "u1", 50, 50, []⟩, some "<p>ok</p>"⟩)
      ⟨⟨"T", "D", none, []⟩, "u1", 50, 50, []⟩
      (⟨[("p1", ⟨"p1", ⟨"T", "D", none, []⟩, "u1", none⟩)]⟩)
      (by decide) (by decide) (by decide) (by decide) (by decide)
      (by decide)).2.2.2⟩

/-- One update call on a page in good standing keeps it in good standing
with the same uid and creation time; the stored updated_at either becomes
that call's clock or (only when the call wrote nothing) stays what it
was, and a successful call always sets it to the call's clock. -/
theorem applyUpdate_preserves (st : FsState) (page_id : String) (c : Int)
    (u : String) (call : UpdateCall) (h : GoodPage st page_id c u) :
    GoodPage (applyUpdate st page_id call).2 page_id c u ∧
    (∀ m, storedMeta st page_id = some m →
      ∃ m', storedMeta (applyUpdate st page_id call).2 page_id = some m' ∧
        m'.created_at = c ∧ m'.page_uid = u ∧
        (m'.updated_at = callNow call ∨ m' = m) ∧
        ((applyUpdate st page_id call).1 = .ok () →
          m'.updated_at = callNow call)) := by
  obtain ⟨hu, hc, ⟨idx, hidx⟩, m, hm, hmu, hmc⟩ := h
  obtain ⟨d, hdir, hdm⟩ : ∃ d, lookupDir st (sanitize_page_id page_id) = some d
      ∧ d.meta = some m := by
    unfold storedMeta at hm
    cases hld : lookupDir st (sanitize_page_id page_id) with
    | none => rw [hld] at hm; simp at hm
    | some d => rw [hld] at hm; exact ⟨d, rfl, by simpa using hm⟩
  have huid : m.page_uid ≠ "" := by rw [hmu]; exact hu
  have hcr : 0 < m.created_at := by rw [hmc]; exact hc
  cases call with
  | metaOnly env meta2 =>
    simp only [applyUpdate, callNow]
    rw [update_page_meta_spec env st page_id meta2 d m idx hdir hdm huid hcr hidx]
    have hpost : storedMeta
        (save_index
          (writeMeta st (sanitize_page_id page_id)
            { meta2 with page_uid := m.page_uid, created_at := m.created_at,
                         updated_at := env.now })
          ⟨mapInsert (sanitize_page_id page_id)
            ⟨sanitize_page_id page_id, meta2.seo, m.page_uid,
             resolveOriginalId idx (sanitize_page_id page_id) page_id⟩
            idx.pages⟩) page_id =
        some { meta2 with page_uid := m.page_uid, created_at := m.created_at,
                          updated_at := env.now } := by
      unfold storedMeta
      rw [lookupDir_save_index, lookupDir_writeMeta_self]
      simp
    constructor
    · exact ⟨hu, hc, ⟨_, rfl⟩, _, hpost, hmu, hmc⟩
    · intro m0 hm0
      exact ⟨_, hpost, hmc, hmu, Or.inl rfl, fun _ => rfl⟩
  | htmlOnly env html =>
    simp only [applyUpdate, callNow]
    cases hv : validate_html html with
    | error msg =>
      rw [update_page_html_spec_err env st page_id html idx msg
        (by simp [hdir]) hidx hv]
      constructor
      · exact ⟨hu, hc, ⟨idx, hidx⟩, m, hm, hmu, hmc⟩
      · intro m0 hm0
        rw [hm] at hm0
        refine ⟨m, hm, hmc, hmu, Or.inr (by simpa using hm0), ?_⟩
        intro hok
        simp at hok
    | ok uu =>
      cases uu
      rw [update_page_html_spec_ok env st page_id html d m idx hdir hdm huid
        hcr hidx hv]
      have hpost : storedMeta
          (save_index
            (writeMeta (writeHtml st (sanitize_page_id page_id) html)
              (sanitize_page_id page_id) { m with updated_at := env.now })
            ⟨mapInsert (sanitize_page_id page_id)
              ⟨sanitize_page_id page_id, m.seo, m.page_uid,
               resolveOriginalId idx (sanitize_page_id page_id) page_id⟩
              idx.pages⟩) page_id = some { m with updated_at := env.now } := by
        unfold storedMeta
        rw [lookupDir_save_index, lookupDir_writeMeta_self]
        simp
      constructor
      · exact ⟨hu, hc, ⟨_, rfl⟩, _, hpost, hmu, hmc⟩
      · intro m0 hm0
        exact ⟨_, hpost, hmc, hmu, Or.inl rfl, fun _ => rfl⟩
  | full env meta2 html =>
    simp only [applyUpdate, callNow]
    rw [update_page_spec env st page_id meta2 html idx (by simp [hdir]) hidx]
    rw [save_page_existing_spec env st page_id meta2 html d m idx hdir hdm
      huid hcr hidx]
    cases hv : validate_html html with
    | error msg =>
      have hpost : storedMeta
          (writeMeta st (sanitize_page_id page_id)
            { meta2 with page_uid := m.page_uid, created_at := m.created_at,
                         updated_at := env.now }) page_id =
          some { meta2 with page_uid := m.page_uid, created_at := m.created_at,
                            updated_at := env.now } := by
        unfold storedMeta
        rw [lookupDir_writeMeta_self]
        simp
      have hidx2 : (writeMeta st (sanitize_page_id page_id)
          { meta2 with page_uid := m.page_uid, created_at := m.created_at,
                       updated_at := env.now }).indexFile = some idx := by
        unfold writeMeta
        rw [indexFile_setDir]
        exact hidx
      constructor
      · exact ⟨hu, hc, ⟨idx, hidx2⟩, _, hpost, hmu, hmc⟩
      · intro m0 hm0
        refine ⟨_, hpost, hmc, hmu, Or.inl rfl, fun _ => rfl⟩
    | ok uu =>
      cases uu
      have hpost : storedMeta
          (save_index
            (writeHtml
              (writeMeta st (sanitize_page_id page_id)
                { meta2 with page_uid := m.page_uid,
                             created_at := m.created_at,
                             updated_at := env.now })
              (sanitize_page_id page_id) html)
            ⟨mapInsert (sanitize_page_id page_id)
              ⟨sanitize_page_id page_id, meta2.seo, m.page_uid,
               resolveOriginalId idx (sanitize_page_id page_id) page_id⟩
              idx.pages⟩) page_id =
          some { meta2 with page_uid := m.page_uid, created_at := m.created_at,
                            updated_at := env.now } := by
        unfold storedMeta
        rw [lookupDir_save_index, lookupDir_writeHtml_self,
          lookupDir_writeMeta_self]
        simp
      constructor
      · exact ⟨hu, hc, ⟨_, rfl⟩, _, hpost, hmu, hmc⟩
      · intro m0 hm0
        exact ⟨_, hpost, hmc, hmu, Or.inl rfl, fun _ => rfl⟩

/-- Good standing survives any sequence of update calls. -/
theorem runUpdates_good (page_id : String) (c : Int) (u : String) :
    ∀ calls st, GoodPage st page_id c u →
      GoodPage (runUpdates page_id st calls) page_id c u := by
  intro calls
  induction calls with
  | nil => intro st h; exact h
  | cons call rest ih =>
    intro st h
    exact ih _ (applyUpdate_preserves st page_id c u call h).1

/-- Along calls whose clocks stay at or above a bound that the stored
updated_at already meets, the stored updated_at keeps meeting it. -/
theorem runUpdates_updated_mono (page_id : String) (c : Int) (u : String)
    (u0 : Int) :
    ∀ calls st, GoodPage st page_id c u →
      (∀ m, storedMeta st page_id = some m → u0 ≤ m.updated_at) →
      (∀ cl ∈ calls, u0 ≤ callNow cl) →
      ∀ m', storedMeta (runUpdates page_id st calls) page_id = some m' →
        u0 ≤ m'.updated_at := by
  intro calls
  induction calls with
  | nil => intro st _ hbd _ m' hm'; exact hbd m' hm'
  | cons call rest ih =>
    intro st h hbd hcl m' hm'
    obtain ⟨m, hm, -, -⟩ := h.2.2.2
    obtain ⟨m2, hm2, _, _, hupd, _⟩ := (applyUpdate_preserves st page_id c u
      call h).2 m hm
    refine ih _ (applyUpdate_preserves st page_id c u call h).1 ?_
      (fun cl hcl2 => hcl cl (by simp [hcl2])) m' hm'
    intro m3 hm3
    rw [hm2] at hm3
    have hm23 : m2 = m3 := by simpa using hm3
    rw [← hm23]
    cases hupd with
    | inl he => rw [he]; exact hcl call (by simp)
    | inr he => rw [he]; exact hbd m hm

/-- C5 counterexample: creating a page at clock 50 with a caller-supplied
created_at of 100 persists created_at 100 and updated_at 50, so the
claimed invariant updated_at >= created_at fails on first persist. -/
theorem c5_future_created_counterexample :
    (create_page cexEnv50 cexStore0 "p1" cexMetaFuture "<p>ok</p>").1 = .ok () ∧
    storedMeta (create_page cexEnv50 cexStore0 "p1" cexMetaFuture
      "<p>ok</p>").2 "p1" = some ⟨⟨"T", "D", none, []⟩, "u1", 100, 50, []⟩ ∧
    (storedMeta (create_page cexEnv50 cexStore0 "p1" cexMetaFuture
      "<p>ok</p>").2 "p1").map (fun m => decide (m.created_at ≤ m.updated_at))
      = some false := by
  decide

/-- C5 amended: for a page in good standing (positive stored created_at c,
nonempty uid u, readable index), created_at stays c and the uid stays u
across any number of update calls of any kind; one update call either sets
the stored updated_at to its clock (always, when it succeeds) or leaves
the metadata untouched (failed HTML validation); updated_at never falls
below a bound the clocks respect, and a successful call whose clock is at
least c restores updated_at >= created_at — but a caller-supplied future
created_at can break that inequality at creation, as the counterexample
shows. -/
theorem c5_timestamps_amended (st : FsState) (page_id : String) (c : Int)
    (u : String) (m : PageMeta)
    (hm : storedMeta st page_id = some m) (hmu : m.page_uid = u)
    (hmc : m.created_at = c) (hu : u ≠ "") (hc : 0 < c)
    (idx : StoreIndex) (hidx : st.indexFile = some idx) :
    (∀ calls, ∃ m', storedMeta (runUpdates page_id st calls) page_id = some m'
      ∧ m'.created_at = c ∧ 0 < m'.created_at ∧ m'.page_uid = u) ∧
    (∀ call, ∃ m', storedMeta (applyUpdate st page_id call).2 page_id = some m'
      ∧ m'.created_at = c ∧ m'.page_uid = u
      ∧ (m'.updated_at = callNow call ∨ m' = m)
      ∧ ((applyUpdate st page_id call).1 = .ok () →
          m'.updated_at = callNow call)) ∧
    (∀ calls, (∀ cl ∈ calls, m.updated_at ≤ callNow cl) →
      ∃ m', storedMeta (runUpdates page_id st calls) page_id = some m'
        ∧ m.updated_at ≤ m'.updated_at) ∧
    (∀ call, (applyUpdate st page_id call).1 = .ok () → c ≤ callNow call →
      ∃ m', storedMeta (applyUpdate st page_id call).2 page_id = some m'
        ∧ m'.created_at ≤ m'.updated_at) := by
  have hgood : GoodPage st page_id c u := ⟨hu, hc, ⟨idx, hidx⟩, m, hm, hmu, hmc⟩
  refine ⟨?_, ?_, ?_, ?_⟩
  · intro calls
    obtain ⟨_, hcpos, _, m', hm', hmu', hmc'⟩ :=
      runUpdates_good page_id c u calls st hgood
    exact ⟨m', hm', hmc', by rw [hmc']; exact hcpos, hmu'⟩
  · intro call
    exact (applyUpdate_preserves st page_id c u call hgood).2 m hm
  · intro calls hcl
    obtain ⟨_, _, _, m', hm', _, _⟩ :=
      runUpdates_good page_id c u calls st hgood
    refine ⟨m', hm', ?_⟩
    refine runUpdates_updated_mono page_id c u m.updated_at calls st hgood
      ?_ hcl m' hm'
    intro m3 hm3
    rw [hm] at hm3
    have : m = m3 := by simpa using hm3
    rw [← this]
  · intro call hok hcn
    obtain ⟨m', hm', hmc', _, _, hupd⟩ :=
      (applyUpdate_preserves st page_id c u call hgood).2 m hm
    refine ⟨m', hm', ?_⟩
    rw [hupd hok, hmc']
    exact hcn

/-- Witness for C5 amended: two successive updates at clocks 99 preserve
created_at 50 on the concrete page. -/
theorem c5_timestamps_amended_witness :
    ∃ m', storedMeta (runUpdates "p1" cexStoreP
        [.metaOnly cexEnv99 cexMeta, .htmlOnly cexEnv99 "<p>v3</p>"]) "p1"
      = some m' ∧ m'.created_at = 50 ∧ 0 < m'.created_at ∧ m'.page_uid = "u1" :=
  (c5_timestamps_amended cexStoreP "p1" 50 "u1"
    ⟨⟨"T", "D", none, []⟩, "u1", 50, 50, []⟩ (by decide) (by decide)
    (by decide) (by decide) (by decide)
    (⟨[("p1", ⟨"p1", ⟨"T", "D", none, []⟩, "u1", none⟩)]⟩) (by decide)).1
    [.metaOnly cexEnv99 cexMeta, .htmlOnly cexEnv99 "<p>v3</p>"]

/-- Mapping a function that fixes every element is the identity. -/
theorem mapIdOf (l : List Char) (f : Char → Char) (h : ∀ c ∈ l, f c = c) :
    l.map f = l := by
  induction l with
  | nil => rfl
  | cons c rest ih =>
    simp only [List.map, h c (by simp)]
    rw [ih (fun d hd => h d (by simp [hd]))]

/-- Sanitization leaves a nonempty alphanumeric id unchanged. -/
theorem sanitize_eq_self (s : String) (hne : s.toList ≠ [])
    (hall : ∀ c ∈ s.toList, c.isAlphanum) : sanitize_page_id s = s := by
  unfold sanitize_page_id
  simp only
  rw [mapIdOf s.toList _ (fun c hc => by simp [hall c hc])]
  rw [if_neg (by simpa [List.isEmpty_iff] using hne)]
  exact mk_toList s

/-- Creating a page directory does not touch the index file. -/
theorem indexFile_ensureDir (st : FsState) (k : String) :
    (ensureDir st k).indexFile = st.indexFile := by
  unfold ensureDir
  split <;> rfl

/-- Creating a missing page directory yields an empty directory. -/
theorem lookupDir_ensureDir_fresh (st : FsState) (k : String)
    (h : lookupDir st k = none) :
    lookupDir (ensureDir st k) k = some ⟨none, none⟩ := by
  unfold ensureDir
  rw [if_neg (by simp [h])]
  unfold lookupDir at h ⊢
  simp only
  rw [List.find?_append]
  rw [show st.dirs.find? (fun p => p.1 = k) = none from by
    cases hf : st.dirs.find? (fun p => p.1 = k) with
    | none => rfl
    | some p => rw [hf] at h; simp at h]
  simp [List.find?]

/-- page_exists is false (without state change) for an id that is neither
indexed nor a directory, under a readable index. -/
theorem page_exists_false (st : FsState) (page_id : String)
    (idx : StoreIndex) (hidx : st.indexFile = some idx)
    (hkey : mapLookup (sanitize_page_id page_id) idx.pages = none)
    (hdir : lookupDir st (sanitize_page_id page_id) = none) :
    page_exists st page_id = (false, st) := by
  unfold page_exists
  rw [load_index_of_some st idx hidx]
  simp [hkey, hdir]

/-- Exact behaviour of save_page on a fresh id with a caller-supplied
nonempty uid: the directory is created and meta.json written (with the
caller's uid, the caller's positive created_at or else the clock, and
updated_at at the clock) before validation; on success the HTML and index
entry follow. -/
theorem save_page_fresh_spec (env : Env) (st : FsState) (page_id : String)
    (meta : PageMeta) (html : String) (idx : StoreIndex)
    (hdir : lookupDir st (sanitize_page_id page_id) = none)
    (hkey : mapLookup (sanitize_page_id page_id) idx.pages = none)
    (huid : meta.page_uid ≠ "")
    (hidx : st.indexFile = some idx) :
    save_page env st page_id meta html =
      (match validate_html html with
       | .error msg =>
         (.error (.validation msg),
          writeMeta (ensureDir st (sanitize_page_id page_id))
            (sanitize_page_id page_id)
            { meta with
              created_at :=
                (if 0 < meta.created_at then meta.created_at else env.now),
              updated_at := env.now })
       | .ok () =>
         (.ok (),
          save_index
            (writeHtml
              (writeMeta (ensureDir st (sanitize_page_id page_id))
                (sanitize_page_id page_id)
                { meta with
                  created_at :=
                    (if 0 < meta.created_at then meta.created_at else env.now),
                  updated_at := env.now })
              (sanitize_page_id page_id) html)
            ⟨mapInsert (sanitize_page_id page_id)
              ⟨sanitize_page_id page_id, meta.seo, meta.page_uid,
               resolveOriginalId idx (sanitize_page_id page_id) page_id⟩
              idx.pages⟩)) := by
  simp only [save_page]
  rw [load_index_of_some _ idx (by rw [indexFile_ensureDir]; exact hidx)]
  rw [lookupDir_ensureDir_fresh st _ hdir]
  simp only [Option.some_bind, hkey, Option.map_none', Option.none_bind,
    if_neg huid, optOr]
  by_cases hcr : 0 < meta.created_at
  · simp only [if_pos hcr, Option.getD_some]
  · simp only [if_neg hcr, Option.getD_none]

/-- A generated uid is nonempty (sixteen random bytes per candidate) and
alphanumeric. -/
theorem gen_uid_props (idx : StoreIndex) (rand : Nat → RandBytes) (uid : String)
    (hlen : ∀ i, (rand i).length = 16)
    (h : generate_unique_page_uid idx rand = .ok uid) :
    uid.toList ≠ [] ∧ ∀ c ∈ uid.toList, c.isAlphanum := by
  obtain ⟨j, hj, hu, hnc, hall⟩ :=
    (genUidLoop_ok idx rand 8 0 uid).mp h
  have htl : uid.toList = (rand (0 + j)).map
      (fun b => PAGE_UID_ALPHABET.getD (b % 62) 'A') := by
    rw [hu]; rfl
  constructor
  · rw [htl]
    intro hnil
    have : ((rand (0 + j)).map
        (fun b => PAGE_UID_ALPHABET.getD (b % 62) 'A')).length = 0 := by
      rw [hnil]; rfl
    rw [List.length_map, hlen (0 + j)] at this
    omega
  · intro c hc
    rw [htl] at hc
    rcases List.mem_map.mp hc with ⟨b, _, hb⟩
    rw [← hb]
    have hlt : b % 62 < PAGE_UID_ALPHABET.length := by
      have : b % 62 < 62 := Nat.mod_lt _ (by omega)
      simpa [PAGE_UID_ALPHABET] using this
    rw [List.getD_eq_getElem _ _ hlt]
    have hmem := List.getElem_mem hlt
    revert hmem
    have halpha : ∀ c2 ∈ PAGE_UID_ALPHABET, c2.isAlphanum := by decide
    intro hmem
    exact halpha _ hmem

/-- Exact behaviour of create_page_auto_uid on a store whose index is
readable, when the generator succeeds with a uid that is neither an index
key nor an existing directory and the HTML validates: the record lands in
the directory named by the uid itself (sanitization fixes it), carrying
the uid, and loads back intact. -/
theorem create_page_auto_uid_spec (env : Env) (st : FsState)
    (meta : PageMeta) (html : String) (idx : StoreIndex) (uid : String)
    (hidx : st.indexFile = some idx)
    (hlen : ∀ i, (env.rand i).length = 16)
    (hgen : generate_unique_page_uid idx env.rand = .ok uid)
    (hkey : mapLookup uid idx.pages = none)
    (hdir : lookupDir st uid = none)
    (hval : validate_html html = .ok ()) :
    sanitize_page_id uid = uid ∧
    create_page_auto_uid env st meta html =
      (.ok { meta with
               page_uid := uid,
               created_at :=
                 (if 0 < meta.created_at then meta.created_at else env.now),
               updated_at := env.now },
       save_index
         (writeHtml
           (writeMeta (ensureDir st uid) uid
             { meta with
                 page_uid := uid,
                 created_at :=
                   (if 0 < meta.created_at then meta.created_at else env.now),
                 updated_at := env.now })
           uid html)
         ⟨mapInsert uid ⟨uid, meta.seo, uid, none⟩ idx.pages⟩) ∧
    load_page (create_page_auto_uid env st meta html).2 uid =
      .ok ({ meta with
               page_uid := uid,
               created_at :=
                 (if 0 < meta.created_at then meta.created_at else env.now),
               updated_at := env.now }, html) := by
  obtain ⟨hne, halpha⟩ := gen_uid_props idx env.rand uid hlen hgen
  have hsan : sanitize_page_id uid = uid := sanitize_eq_self uid hne halpha
  have hune : uid ≠ "" := fun h => hne (by rw [h]; rfl)
  have hresolve : resolveOriginalId idx uid uid = none := by
    unfold resolveOriginalId
    rw [hkey]
    simp [optOr]
  have hload : load_page
      (save_index
        (writeHtml
          (writeMeta (ensureDir st uid) uid
            { meta with
                page_uid := uid,
                created_at :=
                  (if 0 < meta.created_at then meta.created_at else env.now),
                updated_at := env.now })
          uid html)
        ⟨mapInsert uid ⟨uid, meta.seo, uid, none⟩ idx.pages⟩) uid =
      .ok ({ meta with
               page_uid := uid,
               created_at :=
                 (if 0 < meta.created_at then meta.created_at else env.now),
               updated_at := env.now }, html) := by
    simp only [load_page, hsan, lookupDir_save_index, lookupDir_writeHtml_self,
      lookupDir_writeMeta_self, lookupDir_ensureDir_fresh st uid hdir]
    rfl
  have hrun : create_page_auto_uid env st meta html =
      (.ok { meta with
               page_uid := uid,
               created_at :=
                 (if 0 < meta.created_at then meta.created_at else env.now),
               updated_at := env.now },
       save_index
         (writeHtml
           (writeMeta (ensureDir st uid) uid
             { meta with
                 page_uid := uid,
                 created_at :=
                   (if 0 < meta.created_at then meta.created_at else env.now),
                 updated_at := env.now })
           uid html)
         ⟨mapInsert uid ⟨uid, meta.seo, uid, none⟩ idx.pages⟩) := by
    simp only [create_page_auto_uid]
    rw [load_index_of_some st idx hidx]
    simp only [hgen]
    unfold create_page
    rw [page_exists_false st uid idx hidx (by rw [hsan]; exact hkey)
      (by rw [hsan]; exact hdir)]
    simp only [Bool.false_eq_true, if_false]
    rw [save_page_fresh_spec env st uid _ html idx
      (by rw [hsan]; exact hdir) (by rw [hsan]; exact hkey)
      (by simpa using hune) hidx]
    simp only [hval, hsan, hresolve]
    rw [hload]
  exact ⟨hsan, hrun, by rw [hrun]; exact hload⟩

/-- C2: for every metadata value and every HTML string passing validation
(on a store with readable index, successful uid generation, and the fresh
uid colliding with no directory or index key), create_page_auto_uid
returns saved metadata whose seo fields equal those supplied, and loading
by the returned page_uid yields that metadata and the identical HTML. -/
theorem c2_create_auto_roundtrip (env : Env) (st : FsState)
    (meta : PageMeta) (html : String) (idx : StoreIndex) (uid : String)
    (hidx : st.indexFile = some idx)
    (hlen : ∀ i, (env.rand i).length = 16)
    (hgen : generate_unique_page_uid idx env.rand = .ok uid)
    (hkey : mapLookup uid idx.pages = none)
    (hdir : lookupDir st uid = none)
    (hval : validate_html html = .ok ()) :
    ∃ m', (create_page_auto_uid env st meta html).1 = .ok m' ∧
      m'.seo = meta.seo ∧
      load_page (create_page_auto_uid env st meta html).2 m'.page_uid =
        .ok (m', html) := by
  obtain ⟨hsan, hrun, hload⟩ := create_page_auto_uid_spec env st meta html idx
    uid hidx hlen hgen hkey hdir hval
  exact ⟨{ meta with
             page_uid := uid,
             created_at :=
               (if 0 < meta.created_at then meta.created_at else env.now),
             updated_at := env.now },
         by rw [hrun], rfl, hload⟩

/-- Witness for C2 at the empty store, the all-zero random source, clock
50 and a small valid page. -/
theorem c2_create_auto_roundtrip_witness :
    ∃ m', (create_page_auto_uid cexEnv50 cexStore0 cexMeta "<p>ok</p>").1
        = .ok m' ∧
      m'.seo = cexMeta.seo ∧
      load_page (create_page_auto_uid cexEnv50 cexStore0 cexMeta
        "<p>ok</p>").2 m'.page_uid = .ok (m', "<p>ok</p>") :=
  c2_create_auto_roundtrip cexEnv50 cexStore0 cexMeta "<p>ok</p>" ⟨[]⟩
    "AAAAAAAAAAAAAAAA" rfl (fun _ => rfl) (by decide) (by decide) (by decide)
    (by decide)

/-- C10: under the same conditions, the sanitized directory id of the page
created by create_page_auto_uid equals the generated uid (the uid is
alphanumeric, so sanitization fixes it), the returned metadata carries
that uid, and the page is addressable by the uid as directory id. -/
theorem c10_auto_uid_is_directory_id (env : Env) (st : FsState)
    (meta : PageMeta) (html : String) (idx : StoreIndex) (uid : String)
    (hidx : st.indexFile = some idx)
    (hlen : ∀ i, (env.rand i).length = 16)
    (hgen : generate_unique_page_uid idx env.rand = .ok uid)
    (hkey : mapLookup uid idx.pages = none)
    (hdir : lookupDir st uid = none)
    (hval : validate_html html = .ok ()) :
    sanitize_page_id uid = uid ∧
    ∃ m', (create_page_auto_uid env st meta html).1 = .ok m' ∧
      m'.page_uid = uid ∧
      storedMeta (create_page_auto_uid env st meta html).2 uid = some m' ∧
      load_page (create_page_auto_uid env st meta html).2 uid =
        .ok (m', html) := by
  obtain ⟨hsan, hrun, hload⟩ := create_page_auto_uid_spec env st meta html idx
    uid hidx hlen hgen hkey hdir hval
  refine ⟨hsan,
    { meta with
        page_uid := uid,
        created_at :=
          (if 0 < meta.created_at then meta.created_at else env.now),
        updated_at := env.now },
    by rw [hrun], rfl, ?_, hload⟩
  rw [hrun]
  unfold storedMeta
  rw [hsan, lookupDir_save_index, lookupDir_writeHtml_self,
    lookupDir_writeMeta_self, lookupDir_ensureDir_fresh st uid hdir]
  rfl

/-- Witness for C10 at the same concrete inputs. -/
theorem c10_auto_uid_is_directory_id_witness :
    sanitize_page_id "AAAAAAAAAAAAAAAA" = "AAAAAAAAAAAAAAAA" ∧
    ∃ m', (create_page_auto_uid cexEnv50 cexStore0 cexMeta "<p>ok</p>").1
        = .ok m' ∧
      m'.page_uid = "AAAAAAAAAAAAAAAA" ∧
      storedMeta (create_page_auto_uid cexEnv50 cexStore0 cexMeta
        "<p>ok</p>").2 "AAAAAAAAAAAAAAAA" = some m' ∧
      load_page (create_page_auto_uid cexEnv50 cexStore0 cexMeta
        "<p>ok</p>").2 "AAAAAAAAAAAAAAAA" = .ok (m', "<p>ok</p>") :=
  c10_auto_uid_is_directory_id cexEnv50 cexStore0 cexMeta "<p>ok</p>" ⟨[]⟩
    "AAAAAAAAAAAAAAAA" rfl (fun _ => rfl) (by decide) (by decide) (by decide)
    (by decide)

/-- Escaped body text never contains a raw angle bracket open. -/
theorem lt_not_mem_escapeHtml (l : List Char) : '<' ∉ escapeHtml l := by
  induction l with
  | nil => simp [escapeHtml]
  | cons c rest ih =>
    simp only [escapeHtml, List.flatMap_cons] at ih ⊢
    intro hmem
    rcases List.mem_append.mp hmem with h1 | h2
    · split_ifs at h1 with hc1 hc2 hc3
      · revert h1; decide
      · revert h1; decide
      · revert h1; decide
      · simp at h1; exact hc2 h1.symm
    · exact ih h2

/-- Attribute-escaped text never contains a raw angle bracket open. -/
theorem lt_not_mem_escapeHtmlAttr (l : List Char) : '<' ∉ escapeHtmlAttr l := by
  induction l with
  | nil => simp [escapeHtmlAttr]
  | cons c rest ih =>
    simp only [escapeHtmlAttr, List.flatMap_cons] at ih ⊢
    intro hmem
    rcases List.mem_append.mp hmem with h1 | h2
    · split_ifs at h1 with hc1 hc2 hc3 hc4 hc5
      · revert h1; decide
      · revert h1; decide
      · revert h1; decide
      · revert h1; decide
      · revert h1; decide
      · simp at h1; exact hc2 h1.symm
    · exact ih h2

/-- Attribute-escaped text never contains a raw double quote. -/
theorem quot_not_mem_escapeHtmlAttr (l : List Char) :
    '"' ∉ escapeHtmlAttr l := by
  induction l with
  | nil => simp [escapeHtmlAttr]
  | cons c rest ih =>
    simp only [escapeHtmlAttr, List.flatMap_cons] at ih ⊢
    intro hmem
    rcases List.mem_append.mp hmem with h1 | h2
    · split_ifs at h1 with hc1 hc2 hc3 hc4 hc5
      · revert h1; decide
      · revert h1; decide
      · revert h1; decide
      · revert h1; decide
      · revert h1; decide
      · simp at h1; exact hc4 h1.symm
    · exact ih h2

/-- Char.ofNat of a valid scalar value has that value. -/
theorem charOfNat_toNat (n : Nat) (hv : n.isValidChar) :
    (Char.ofNat n).toNat = n := by
  simp [Char.ofNat, hv, Char.ofNatAux, Char.toNat, UInt32.toNat,
    BitVec.toNat_ofNatLt]

/-- Lowercasing maps no other character to the angle bracket open. -/
theorem toLowerAscii_eq_lt (c : Char) (h : toLowerAscii c = '<') : c = '<' := by
  unfold toLowerAscii at h
  split_ifs at h with hc
  · exfalso
    simp only [Bool.and_eq_true, decide_eq_true_eq] at hc
    have hz := Char.le_def.mp hc.2
    have ha := Char.le_def.mp hc.1
    rw [UInt32.le_def] at hz ha
    have hz2 : c.toNat ≤ 90 := by
      simpa [Char.toNat, UInt32.toNat] using hz
    have ha2 : 65 ≤ c.toNat := by
      simpa [Char.toNat, UInt32.toNat] using ha
    have hvv : (c.toNat + 32).isValidChar := by
      left
      omega
    have h2 := congrArg Char.toNat h
    rw [charOfNat_toNat _ hvv] at h2
    have h3 : c.toNat + 32 = 60 := by simpa using h2
    omega
  · exact h

/-- Quote-aware scanning passes over a quote-free segment while inside a
quote. -/
theorem findTagEndAux_skip (q : Char) (X Y : List Char) (i : Nat)
    (h : ∀ c ∈ X, c ≠ q) :
    findTagEndAux (X ++ Y) i (some q) =
      findTagEndAux Y (i + X.length) (some q) := by
  induction X generalizing i with
  | nil => simp
  | cons c rest ih =>
    simp only [List.cons_append, findTagEndAux, List.append_eq]
    rw [if_neg (by simpa using h c (by simp))]
    rw [ih (i + 1) (fun d hd => h d (by simp [hd]))]
    congr 1
    simp
    omega

/-- The case-insensitive scan passes over a segment in which the needle
matches at no position (for any start of that segment). -/
theorem findFromCIAux_skip (nl X Y : List Char) (i : Nat)
    (h : ∀ j, j < X.length →
      ¬ nl.isPrefixOf (((X.drop j) ++ Y).map toLowerAscii)) :
    findFromCIAux nl (X ++ Y) i = findFromCIAux nl Y (i + X.length) := by
  induction X generalizing i with
  | nil => simp
  | cons c rest ih =>
    simp only [List.cons_append, findFromCIAux, List.append_eq]
    rw [if_neg (by simpa using h 0 (by simp))]
    rw [ih (i + 1) (fun j hj => by simpa using h (j + 1) (by simpa using hj))]
    congr 1
    simp
    omega

/-- The occurrence counter passes over a segment in which the needle
matches at no position. -/
theorem countSubAux_skip (nl X Y : List Char)
    (h : ∀ j, j < X.length → ¬ nl.isPrefixOf ((X.drop j) ++ Y)) :
    countSubAux nl (X ++ Y) = countSubAux nl Y := by
  induction X with
  | nil => simp
  | cons c rest ih =>
    simp only [List.cons_append, countSubAux, List.append_eq]
    rw [if_neg (by simpa using h 0 (by simp))]
    rw [ih (fun j hj => by simpa using h (j + 1) (by simpa using hj))]
    omega

/-- A needle starting with an angle bracket open matches nowhere inside a
segment free of that character, wherever the segment ends. -/
theorem no_match_of_no_lt (nl' X Y : List Char) (hX : '<' ∉ X) :
    ∀ j, j < X.length → ¬ ('<' :: nl').isPrefixOf ((X.drop j) ++ Y) := by
  intro j hj hpre
  cases hdrop : X.drop j with
  | nil =>
    rw [hdrop] at hpre
    have := congrArg List.length hdrop
    simp at this
    omega
  | cons c r =>
    rw [hdrop] at hpre
    simp only [List.cons_append, List.isPrefixOf, Bool.and_eq_true, beq_iff_eq]
    at hpre
    have hc : c = '<' := hpre.1.symm
    have hcm : c ∈ X := List.drop_subset j X (by rw [hdrop]; simp)
    rw [hc] at hcm
    exact hX hcm

/-- The case-insensitive variant. -/
theorem no_match_ci_of_no_lt (nl' X Y : List Char) (hX : '<' ∉ X) :
    ∀ j, j < X.length →
      ¬ ('<' :: nl').isPrefixOf (((X.drop j) ++ Y).map toLowerAscii) := by
  intro j hj hpre
  cases hdrop : X.drop j with
  | nil =>
    rw [hdrop] at hpre
    have := congrArg List.length hdrop
    simp at this
    omega
  | cons c r =>
    rw [hdrop] at hpre
    simp only [List.cons_append, List.map_cons, List.isPrefixOf,
      Bool.and_eq_true, beq_iff_eq] at hpre
    have hc : c = '<' := toLowerAscii_eq_lt c hpre.1.symm
    have hcm : c ∈ X := List.drop_subset j X (by rw [hdrop]; simp)
    rw [hc] at hcm
    exact hX hcm

/-- Position-wise no-match proofs compose over concatenation: if the
predicate fails from every position of the first segment (tail included)
and from every position of the second, it fails from every position of
the whole. -/
theorem nomatch_append (P : List Char → Prop) (X1 X2 Y : List Char)
    (h1 : ∀ j, j < X1.length → ¬ P (X1.drop j ++ (X2 ++ Y)))
    (h2 : ∀ j, j < X2.length → ¬ P (X2.drop j ++ Y)) :
    ∀ j, j < (X1 ++ X2).length → ¬ P ((X1 ++ X2).drop j ++ Y) := by
  intro j hj
  by_cases hle : j < X1.length
  · rw [List.drop_append_of_le_length (by omega)]
    rw [List.append_assoc]
    exact h1 j hle
  · rw [List.drop_append_eq_append_drop]
    rw [List.drop_eq_nil_of_le (by omega), List.nil_append]
    refine h2 (j - X1.length) ?_
    rw [List.length_append] at hj
    omega

/-- No case-insensitive head-close match begins inside the title open
tag. -/
theorem nomatchHC_titleOpen (Y : List Char) :
    ∀ j, j < ("<title>".toList).length →
      ¬ ("</head".toList).isPrefixOf
        ((("<title>".toList).drop j ++ Y).map toLowerAscii) := by
  intro j hj
  have hj7 : j < 7 := by simpa using hj
  interval_cases j <;> simp [List.isPrefixOf, toLowerAscii]

/-- No case-insensitive head-close match begins inside the title close
tag. -/
theorem nomatchHC_titleClose (Y : List Char) :
    ∀ j, j < ("</title>".toList).length →
      ¬ ("</head".toList).isPrefixOf
        ((("</title>".toList).drop j ++ Y).map toLowerAscii) := by
  intro j hj
  have hj8 : j < 8 := by simpa using hj
  interval_cases j <;> simp [List.isPrefixOf, toLowerAscii]

/-- No case-insensitive head-close match begins inside the description
meta opening. -/
theorem nomatchHC_metaDesc (Y : List Char) :
    ∀ j, j < ("<meta name=\"description\" content=\"".toList).length →
      ¬ ("</head".toList).isPrefixOf
        ((("<meta name=\"description\" content=\"".toList).drop j ++ Y).map
          toLowerAscii) := by
  intro j hj
  have hj34 : j < 34 := by simpa using hj
  interval_cases j <;> simp [List.isPrefixOf, toLowerAscii]

/-- No case-insensitive head-close match begins inside the closing quote
and bracket. -/
theorem nomatchHC_quoteGt (Y : List Char) :
    ∀ j, j < ("\">".toList).length →
      ¬ ("</head".toList).isPrefixOf
        ((("\">".toList).drop j ++ Y).map toLowerAscii) := by
  intro j hj
  have hj2 : j < 2 := by simpa using hj
  interval_cases j <;> simp [List.isPrefixOf, toLowerAscii]

/-- No case-insensitive head-close match begins inside the keywords meta
opening. -/
theorem nomatchHC_metaKw (Y : List Char) :
    ∀ j, j < ("<meta name=\"keywords\" content=\"".toList).length →
      ¬ ("</head".toList).isPrefixOf
        ((("<meta name=\"keywords\" content=\"".toList).drop j ++ Y).map
          toLowerAscii) := by
  intro j hj
  have hj31 : j < 31 := by simpa using hj
  interval_cases j <;> simp [List.isPrefixOf, toLowerAscii]

/-- No case-insensitive head-close match begins anywhere inside the
injected SEO additions, wherever the document continues. -/
theorem nomatchHC_additions (title : String) (seo : SeoMeta) (Y : List Char) :
    ∀ j, j < (seoAdditions title seo).length →
      ¬ ("</head".toList).isPrefixOf
        (((seoAdditions title seo).drop j ++ Y).map toLowerAscii) := by
  have hE := lt_not_mem_escapeHtml title.toList
  have hD := lt_not_mem_escapeHtmlAttr seo.description.toList
  have hNl : ("</head".toList) = '<' :: "/head".toList := rfl
  have hEno : ∀ Y2, ∀ j, j < (escapeHtml title.toList).length →
      ¬ ("</head".toList).isPrefixOf
        (((escapeHtml title.toList).drop j ++ Y2).map toLowerAscii) := by
    intro Y2
    rw [hNl]
    exact no_match_ci_of_no_lt _ _ _ hE
  have hDno : ∀ Y2, ∀ j, j < (escapeHtmlAttr seo.description.toList).length →
      ¬ ("</head".toList).isPrefixOf
        (((escapeHtmlAttr seo.description.toList).drop j ++ Y2).map
          toLowerAscii) := by
    intro Y2
    rw [hNl]
    exact no_match_ci_of_no_lt _ _ _ hD
  have s1 := fun Y2 => nomatch_append
    (fun l => ("</head".toList).isPrefixOf (l.map toLowerAscii) = true)
    ("<title>".toList) (escapeHtml title.toList) Y2
    (nomatchHC_titleOpen _) (hEno _)
  have s2 := fun Y2 => nomatch_append
    (fun l => ("</head".toList).isPrefixOf (l.map toLowerAscii) = true)
    _ ("</title>".toList) Y2 (s1 _) (nomatchHC_titleClose _)
  have s3 := fun Y2 => nomatch_append
    (fun l => ("</head".toList).isPrefixOf (l.map toLowerAscii) = true)
    _ ("<meta name=\"description\" content=\"".toList) Y2 (s2 _)
    (nomatchHC_metaDesc _)
  have s4 := fun Y2 => nomatch_append
    (fun l => ("</head".toList).isPrefixOf (l.map toLowerAscii) = true)
    _ (escapeHtmlAttr seo.description.toList) Y2 (s3 _) (hDno _)
  have s5 := fun Y2 => nomatch_append
    (fun l => ("</head".toList).isPrefixOf (l.map toLowerAscii) = true)
    _ ("\">".toList) Y2 (s4 _) (nomatchHC_quoteGt _)
  simp only [seoAdditions]
  cases seo.keywords with
  | none =>
    simp only [List.append_nil]
    exact s5 Y
  | some items =>
    by_cases hb : (String.intercalate ", " items).toList.all rustIsWhitespace
    · simp only [hb, if_true, List.append_nil]
      exact s5 Y
    · simp only [hb]
      have hK := lt_not_mem_escapeHtmlAttr (String.intercalate ", " items).toList
      have hKno : ∀ Y2, ∀ j,
          j < (escapeHtmlAttr (String.intercalate ", " items).toList).length →
          ¬ ("</head".toList).isPrefixOf
            (((escapeHtmlAttr (String.intercalate ", " items).toList).drop j
              ++ Y2).map toLowerAscii) := by
        intro Y2
        rw [hNl]
        exact no_match_ci_of_no_lt _ _ _ hK
      have k1 := fun Y2 => nomatch_append
        (fun l => ("</head".toList).isPrefixOf (l.map toLowerAscii) = true)
        ("<meta name=\"keywords\" content=\"".toList)
        (escapeHtmlAttr (String.intercalate ", " items).toList) Y2
        (nomatchHC_metaKw _) (hKno _)
      have k2 := fun Y2 => nomatch_append
        (fun l => ("</head".toList).isPrefixOf (l.map toLowerAscii) = true)
        _ ("\">".toList) Y2 (k1 _) (nomatchHC_quoteGt _)
      exact nomatch_append
        (fun l => ("</head".toList).isPrefixOf (l.map toLowerAscii) = true)
        _ _ Y (s5 _) (k2 _)

/-- The first injection into the test document: additions dropped into the
empty head. -/
theorem inject_doc0 (title : String) (seo : SeoMeta) :
    inject_seo_meta "<html><head></head><body></body></html>".toList title seo
      = "<html><head>".toList ++
        (seoAdditions title seo ++ "</head><body></body></html>".toList) := by
  simp only [inject_seo_meta]
  rw [show find_head_range "<html><head></head><body></body></html>".toList
      = some (12, 12) from by decide]
  simp only []
  rw [show ("<html><head></head><body></body></html>".toList).take 12
      = "<html><head>".toList from by decide]
  rw [show ("<html><head></head><body></body></html>".toList).drop 12
      = "</head><body></body></html>".toList from by decide]
  rw [show ((12 : Nat) - 12) = 0 from rfl]
  rw [List.take_zero]
  rw [show remove_head_seo_tags [] = [] from rfl]
  simp [List.append_assoc]

/-- In the once-injected document the first case-insensitive head close
at or after position 12 sits exactly after the additions. -/
theorem findHC_once (title : String) (seo : SeoMeta) :
    find_bytes_ci ("<html><head>".toList ++
        (seoAdditions title seo ++ "</head><body></body></html>".toList))
      12 "</head".toList
      = some (12 + (seoAdditions title seo).length) := by
  unfold find_bytes_ci
  rw [if_neg (by decide)]
  rw [if_neg (by
    simp only [List.length_append, Bool.or_eq_true, not_or, decide_eq_true_eq,
      not_le, not_lt]
    have h12 : ("<html><head>".toList).length = 12 := by decide
    have h27 : ("</head><body></body></html>".toList).length = 27 := by decide
    have h6 : ("</head".toList).length = 6 := by decide
    omega)]
  rw [show ("</head".toList.map toLowerAscii) = "</head".toList from by decide]
  rw [show ("<html><head>".toList ++
      (seoAdditions title seo ++ "</head><body></body></html>".toList)).drop 12
    = seoAdditions title seo ++ "</head><body></body></html>".toList from by
    rw [List.drop_left' (by decide)]]
  rw [findFromCIAux_skip _ _ _ 12 (nomatchHC_additions title seo _)]
  simp only [findFromCIAux]
  rw [if_pos (by decide)]

/-- The head-locating scan of any document that begins with the html open
tag and an empty-attribute head open tag: the head content starts at 12
and ends at the first case-insensitive head close found from there (the
whole concrete prefix scan reduces definitionally and stops at that
search). -/
theorem fhr_head12 (X : List Char) (m : Nat)
    (hfb : find_bytes_ci ("<html><head>".toList ++ X) 12 "</head".toList
      = some m) :
    find_head_range ("<html><head>".toList ++ X) = some (12, m) := by
  have key : find_head_range ("<html><head>".toList ++ X) =
      (match find_bytes_ci ("<html><head>".toList ++ X) 12 "</head".toList with
       | some cs => some (12, cs)
       | none => findHeadRangeAux ("<html><head>".toList ++ X)
           ('h' :: 'e' :: 'a' :: 'd' :: '>' :: X) 7) := rfl
  rw [key, hfb]

theorem getD_eq_headD_drop (l : List Char) (i : Nat) (d : Char) :
    l.getD i d = (l.drop i).headD d := by
  induction l generalizing i with
  | nil => simp
  | cons c rest ih =>
    cases i with
    | zero => simp
    | succ j => simpa using ih j

theorem strip_title_step (l : List Char) (i fuel : Nat) (E rest : List Char)
    (hdrop : l.drop i = "<title>".toList ++ (E ++ ("</title>".toList ++ rest)))
    (hE : '<' ∉ E) :
    removeHeadSeoAux l (fuel + 1) i =
      removeHeadSeoAux l fuel (i + (15 + E.length)) := by
  have hlen : l.length = i + (15 + E.length + rest.length) := by
    have h1 := congrArg List.length hdrop
    simp at h1
    have h2 : i ≤ l.length := by
      by_contra hcon
      rw [List.drop_eq_nil_of_le (by omega)] at hdrop
      have := congrArg List.length hdrop
      simp at this
    omega
  have hd1 : l.drop (i + 1) =
      "title>".toList ++ (E ++ ("</title>".toList ++ rest)) := by
    rw [(List.drop_drop 1 i l).symm, hdrop]
    try rfl
  have hd6 : l.drop (i + 6) =
      ">".toList ++ (E ++ ("</title>".toList ++ rest)) := by
    rw [(List.drop_drop 6 i l).symm, hdrop]
    try rfl
  have hd7 : l.drop (i + 7) = E ++ ("</title>".toList ++ rest) := by
    rw [(List.drop_drop 7 i l).symm, hdrop]
    try rfl
  have hgetD : l.getD i ' ' = '<' := by
    rw [getD_eq_headD_drop, hdrop]
    rfl
  have hskip : skipWs l (i + 1) = i + 1 := by
    unfold skipWs
    rw [hd1]
    rfl
  have hlt1 : decide (i + 1 < l.length) = true := by
    simp
    omega
  have hgetD1 : l.getD (i + 1) ' ' = 't' := by
    rw [getD_eq_headD_drop, hd1]
    rfl
  have hname : nameEnd l (i + 1) = i + 6 := by
    unfold nameEnd
    rw [hd1]
    rfl
  have htake : (l.drop (i + 1)).take (i + 6 - (i + 1)) = "title".toList := by
    rw [hd1, show i + 6 - (i + 1) = 5 from by omega]
    rfl
  have hparse : parse_tag_name_ci l (i + 1) = some ("title", i + 6) := by
    unfold parse_tag_name_ci
    simp only [hskip, hlt1, hgetD1, Bool.true_and]
    rw [show (('t' == '/') : Bool) = false from rfl]
    simp only [Bool.false_eq_true, if_false]
    rw [hname]
    rw [if_neg (by omega : ¬(i + 1 = i + 6))]
    rw [htake]
    rfl
  have hfte1 : find_tag_end l (i + 6) = some (i + 6) := by
    unfold find_tag_end
    rw [hd6]
    rfl
  have hfbc : find_bytes_ci l (i + 7) "</title".toList
      = some (i + 7 + E.length) := by
    unfold find_bytes_ci
    rw [if_neg (by decide)]
    rw [if_neg (by
      simp only [Bool.or_eq_true, not_or, decide_eq_true_eq, not_le, not_lt]
      have h7 : ("</title".toList).length = 7 := rfl
      have h8 : ("</title>".toList).length = 8 := rfl
      omega)]
    rw [hd7]
    rw [show ("</title".toList.map toLowerAscii) = "</title".toList from by decide]
    rw [findFromCIAux_skip _ _ _ _ (by
      rw [show ("</title".toList) = '<' :: "/title".toList from rfl]
      exact no_match_ci_of_no_lt _ _ _ hE)]
    rfl
  have hd9E : l.drop (i + (9 + E.length)) =
      "title>".toList ++ rest := by
    rw [(List.drop_drop (9 + E.length) i l).symm, hdrop]
    rw [show 9 + E.length = ("<title>".toList).length + (E.length + 2) from by
      simp
      omega]
    rw [List.drop_append]
    rw [show (E ++ ("</title>".toList ++ rest)).drop (E.length + 2)
        = ("</title>".toList ++ rest).drop 2 from List.drop_append 2]
    rfl
  have hfte2 : find_tag_end l (i + 7 + E.length + 2)
      = some (i + (9 + E.length) + 5) := by
    unfold find_tag_end
    rw [show i + 7 + E.length + 2 = i + (9 + E.length) from by omega]
    rw [hd9E]
    rfl
  rw [show removeHeadSeoAux l (fuel + 1) i =
      (if l.length ≤ i then []
       else
        let c := l.getD i ' '
        if c != '<' then c :: removeHeadSeoAux l fuel (i + 1)
        else
          match parse_tag_name_ci l (i + 1) with
          | none => c :: removeHeadSeoAux l fuel (i + 1)
          | some (name, after_name) =>
            let lower := lowerStr name
            if lower = "title" then
              match find_tag_end l after_name with
              | some tag_end =>
                match find_bytes_ci l (tag_end + 1) "</title".toList with
                | some close_start =>
                  match find_tag_end l (close_start + 2) with
                  | some close_end => removeHeadSeoAux l fuel (close_end + 1)
                  | none => c :: removeHeadSeoAux l fuel (i + 1)
                | none => c :: removeHeadSeoAux l fuel (i + 1)
              | none => c :: removeHeadSeoAux l fuel (i + 1)
            else if lower = "meta" then
              match find_tag_end l after_name with
              | some tag_end =>
                let tag_html := (l.drop i).take (tag_end + 1 - i)
                if is_meta_named tag_html "description"
                    || is_meta_named tag_html "keywords" then
                  removeHeadSeoAux l fuel (tag_end + 1)
                else c :: removeHeadSeoAux l fuel (i + 1)
              | none => c :: removeHeadSeoAux l fuel (i + 1)
            else c :: removeHeadSeoAux l fuel (i + 1)) from rfl]
  rw [if_neg (by omega)]
  rw [hgetD]
  simp only [bne_self_eq_false, Bool.false_eq_true, if_false]
  rw [hparse]
  simp only [lowerStr]
  simp only [show (String.mk ("title".toList.map toLowerAscii)) = "title" from
    by decide]
  simp only [if_true]
  simp only [hfte1]
  rw [show i + 6 + 1 = i + 7 from by omega]
  simp only [hfbc]
  simp only [hfte2]
  congr 1
  omega

/-- The description meta tag, as injected, is recognised by is_meta_named
for "description" whatever the escaped content. -/
theorem is_meta_named_desc (D : List Char) :
    is_meta_named ("<meta name=\"description\" content=\"".toList ++
      (D ++ "\">".toList)) "description" = true := by
  simp only [is_meta_named, find_bytes, List.map_append]
  rw [show ("<meta name=\"description\" content=\"".toList.map toLowerAscii)
      = "<meta name=\"description\" content=\"".toList from by decide]
  rw [if_neg (by decide)]
  rw [if_neg (by
    simp only [Bool.or_eq_true, not_or, decide_eq_true_eq, not_le, not_lt,
      List.length_append, List.length_map]
    have h1 : ("<meta name=\"description\" content=\"".toList).length = 34 :=
      by decide
    have h2 : ("\">".toList).length = 2 := by decide
    have h3 : ("name".toList).length = 4 := by decide
    omega)]
  rfl

/-- The keywords meta tag is not recognised for "description". -/
theorem is_meta_named_kw_not_desc (K : List Char) :
    is_meta_named ("<meta name=\"keywords\" content=\"".toList ++
      (K ++ "\">".toList)) "description" = false := by
  simp only [is_meta_named, find_bytes, List.map_append]
  rw [show ("<meta name=\"keywords\" content=\"".toList.map toLowerAscii)
      = "<meta name=\"keywords\" content=\"".toList from by decide]
  rw [if_neg (by decide)]
  rw [if_neg (by
    simp only [Bool.or_eq_true, not_or, decide_eq_true_eq, not_le, not_lt,
      List.length_append, List.length_map]
    have h1 : ("<meta name=\"keywords\" content=\"".toList).length = 31 :=
      by decide
    have h2 : ("\">".toList).length = 2 := by decide
    have h3 : ("name".toList).length = 4 := by decide
    omega)]
  rfl

/-- The keywords meta tag is recognised for "keywords". -/
theorem is_meta_named_kw (K : List Char) :
    is_meta_named ("<meta name=\"keywords\" content=\"".toList ++
      (K ++ "\">".toList)) "keywords" = true := by
  simp only [is_meta_named, find_bytes, List.map_append]
  rw [show ("<meta name=\"keywords\" content=\"".toList.map toLowerAscii)
      = "<meta name=\"keywords\" content=\"".toList from by decide]
  rw [if_neg (by decide)]
  rw [if_neg (by
    simp only [Bool.or_eq_true, not_or, decide_eq_true_eq, not_le, not_lt,
      List.length_append, List.length_map]
    have h1 : ("<meta name=\"keywords\" content=\"".toList).length = 31 :=
      by decide
    have h2 : ("\">".toList).length = 2 := by decide
    have h3 : ("name".toList).length = 4 := by decide
    omega)]
  rfl

theorem strip_meta_desc_step (l : List Char) (i fuel : Nat)
    (D rest : List Char)
    (hdrop : l.drop i = "<meta name=\"description\" content=\"".toList ++
      (D ++ ("\">".toList ++ rest)))
    (hDq : '"' ∉ D) :
    removeHeadSeoAux l (fuel + 1) i =
      removeHeadSeoAux l fuel (i + (36 + D.length)) := by
  have hlen : l.length = i + (36 + D.length + rest.length) := by
    have h1 := congrArg List.length hdrop
    simp at h1
    have h2 : i ≤ l.length := by
      by_contra hcon
      rw [List.drop_eq_nil_of_le (by omega)] at hdrop
      have := congrArg List.length hdrop
      simp at this
    omega
  have hd1 : l.drop (i + 1) =
      "meta name=\"description\" content=\"".toList ++
        (D ++ ("\">".toList ++ rest)) := by
    rw [(List.drop_drop 1 i l).symm, hdrop]
    try rfl
  have hd5 : l.drop (i + 5) =
      " name=\"description\" content=\"".toList ++
        (D ++ ("\">".toList ++ rest)) := by
    rw [(List.drop_drop 5 i l).symm, hdrop]
    try rfl
  have hgetD : l.getD i ' ' = '<' := by
    rw [getD_eq_headD_drop, hdrop]
    rfl
  have hskip : skipWs l (i + 1) = i + 1 := by
    unfold skipWs
    rw [hd1]
    rfl
  have hlt1 : decide (i + 1 < l.length) = true := by
    simp
    omega
  have hgetD1 : l.getD (i + 1) ' ' = 'm' := by
    rw [getD_eq_headD_drop, hd1]
    rfl
  have hname : nameEnd l (i + 1) = i + 5 := by
    unfold nameEnd
    rw [hd1]
    rfl
  have htake : (l.drop (i + 1)).take (i + 5 - (i + 1)) = "meta".toList := by
    rw [hd1, show i + 5 - (i + 1) = 4 from by omega]
    rfl
  have hparse : parse_tag_name_ci l (i + 1) = some ("meta", i + 5) := by
    unfold parse_tag_name_ci
    simp only [hskip, hlt1, hgetD1, Bool.true_and]
    rw [show (('m' == '/') : Bool) = false from rfl]
    simp only [Bool.false_eq_true, if_false]
    rw [hname]
    rw [if_neg (by omega : ¬(i + 1 = i + 5))]
    rw [htake]
    rfl
  have hfteM : find_tag_end l (i + 5) = some (i + 34 + D.length + 1) := by
    unfold find_tag_end
    rw [hd5]
    rw [show findTagEndAux (" name=\"description\" content=\"".toList ++
          (D ++ ("\">".toList ++ rest))) (i + 5) none
        = findTagEndAux (D ++ ("\">".toList ++ rest)) (i + 34) (some '"')
      from rfl]
    rw [findTagEndAux_skip '"' D ("\">".toList ++ rest) (i + 34)
      (fun c hc he => hDq (he ▸ hc))]
    rfl
  have htag : (l.drop i).take (i + 34 + D.length + 1 + 1 - i)
      = "<meta name=\"description\" content=\"".toList ++
        (D ++ "\">".toList) := by
    rw [hdrop,
      show i + 34 + D.length + 1 + 1 - i = 34 + (D.length + 2) from by omega]
    rw [show (34 : Nat) + (D.length + 2)
        = ("<meta name=\"description\" content=\"".toList).length +
          (D.length + 2) from by
      rw [show ("<meta name=\"description\" content=\"".toList).length = 34
        from by decide]]
    rw [List.take_append]
    congr 1
    rw [List.take_append]
    congr 1
  rw [show removeHeadSeoAux l (fuel + 1) i =
      (if l.length ≤ i then []
       else
        let c := l.getD i ' '
        if c != '<' then c :: removeHeadSeoAux l fuel (i + 1)
        else
          match parse_tag_name_ci l (i + 1) with
          | none => c :: removeHeadSeoAux l fuel (i + 1)
          | some (name, after_name) =>
            let lower := lowerStr name
            if lower = "title" then
              match find_tag_end l after_name with
              | some tag_end =>
                match find_bytes_ci l (tag_end + 1) "</title".toList with
                | some close_start =>
                  match find_tag_end l (close_start + 2) with
                  | some close_end => removeHeadSeoAux l fuel (close_end + 1)
                  | none => c :: removeHeadSeoAux l fuel (i + 1)
                | none => c :: removeHeadSeoAux l fuel (i + 1)
              | none => c :: removeHeadSeoAux l fuel (i + 1)
            else if lower = "meta" then
              match find_tag_end l after_name with
              | some tag_end =>
                let tag_html := (l.drop i).take (tag_end + 1 - i)
                if is_meta_named tag_html "description"
                    || is_meta_named tag_html "keywords" then
                  removeHeadSeoAux l fuel (tag_end + 1)
                else c :: removeHeadSeoAux l fuel (i + 1)
              | none => c :: removeHeadSeoAux l fuel (i + 1)
            else c :: removeHeadSeoAux l fuel (i + 1)) from rfl]
  rw [if_neg (by omega)]
  rw [hgetD]
  simp only [bne_self_eq_false, Bool.false_eq_true, if_false]
  rw [hparse]
  simp only [lowerStr]
  simp only [show (String.mk ("meta".toList.map toLowerAscii)) = "meta" from
    by decide]
  rw [if_neg (by decide : ¬("meta" : String) = "title")]
  simp only [if_true]
  simp only [hfteM]
  rw [htag]
  rw [is_meta_named_desc]
  simp only [Bool.true_or, if_true]
  congr 1
  omega

theorem strip_meta_kw_step (l : List Char) (i fuel : Nat)
    (K rest : List Char)
    (hdrop : l.drop i = "<meta name=\"keywords\" content=\"".toList ++
      (K ++ ("\">".toList ++ rest)))
    (hKq : '"' ∉ K) :
    removeHeadSeoAux l (fuel + 1) i =
      removeHeadSeoAux l fuel (i + (33 + K.length)) := by
  have hlen : l.length = i + (33 + K.length + rest.length) := by
    have h1 := congrArg List.length hdrop
    simp at h1
    have h2 : i ≤ l.length := by
      by_contra hcon
      rw [List.drop_eq_nil_of_le (by omega)] at hdrop
      have := congrArg List.length hdrop
      simp at this
    omega
  have hd1 : l.drop (i + 1) =
      "meta name=\"keywords\" content=\"".toList ++
        (K ++ ("\">".toList ++ rest)) := by
    rw [(List.drop_drop 1 i l).symm, hdrop]
    try rfl
  have hd5 : l.drop (i + 5) =
      " name=\"keywords\" content=\"".toList ++
        (K ++ ("\">".toList ++ rest)) := by
    rw [(List.drop_drop 5 i l).symm, hdrop]
    try rfl
  have hgetD : l.getD i ' ' = '<' := by
    rw [getD_eq_headD_drop, hdrop]
    rfl
  have hskip : skipWs l (i + 1) = i + 1 := by
    unfold skipWs
    rw [hd1]
    rfl
  have hlt1 : decide (i + 1 < l.length) = true := by
    simp
    omega
  have hgetD1 : l.getD (i + 1) ' ' = 'm' := by
    rw [getD_eq_headD_drop, hd1]
    rfl
  have hname : nameEnd l (i + 1) = i + 5 := by
    unfold nameEnd
    rw [hd1]
    rfl
  have htake : (l.drop (i + 1)).take (i + 5 - (i + 1)) = "meta".toList := by
    rw [hd1, show i + 5 - (i + 1) = 4 from by omega]
    rfl
  have hparse : parse_tag_name_ci l (i + 1) = some ("meta", i + 5) := by
    unfold parse_tag_name_ci
    simp only [hskip, hlt1, hgetD1, Bool.true_and]
    rw [show (('m' == '/') : Bool) = false from rfl]
    simp only [Bool.false_eq_true, if_false]
    rw [hname]
    rw [if_neg (by omega : ¬(i + 1 = i + 5))]
    rw [htake]
    rfl
  have hfteM : find_tag_end l (i + 5) = some (i + 31 + K.length + 1) := by
    unfold find_tag_end
    rw [hd5]
    rw [show findTagEndAux (" name=\"keywords\" content=\"".toList ++
          (K ++ ("\">".toList ++ rest))) (i + 5) none
        = findTagEndAux (K ++ ("\">".toList ++ rest)) (i + 31) (some '"')
      from rfl]
    rw [findTagEndAux_skip '"' K ("\">".toList ++ rest) (i + 31)
      (fun c hc he => hKq (he ▸ hc))]
    rfl
  have htag : (l.drop i).take (i + 31 + K.length + 1 + 1 - i)
      = "<meta name=\"keywords\" content=\"".toList ++
        (K ++ "\">".toList) := by
    rw [hdrop,
      show i + 31 + K.length + 1 + 1 - i = 31 + (K.length + 2) from by omega]
    rw [show (31 : Nat) + (K.length + 2)
        = ("<meta name=\"keywords\" content=\"".toList).length +
          (K.length + 2) from by
      rw [show ("<meta name=\"keywords\" content=\"".toList).length = 31
        from by decide]]
    rw [List.take_append]
    congr 1
    rw [List.take_append]
    congr 1
  rw [show removeHeadSeoAux l (fuel + 1) i =
      (if l.length ≤ i then []
       else
        let c := l.getD i ' '
        if c != '<' then c :: removeHeadSeoAux l fuel (i + 1)
        else
          match parse_tag_name_ci l (i + 1) with
          | none => c :: removeHeadSeoAux l fuel (i + 1)
          | some (name, after_name) =>
            let lower := lowerStr name
            if lower = "title" then
              match find_tag_end l after_name with
              | some tag_end =>
                match find_bytes_ci l (tag_end + 1) "</title".toList with
                | some close_start =>
                  match find_tag_end l (close_start + 2) with
                  | some close_end => removeHeadSeoAux l fuel (close_end + 1)
                  | none => c :: removeHeadSeoAux l fuel (i + 1)
                | none => c :: removeHeadSeoAux l fuel (i + 1)
              | none => c :: removeHeadSeoAux l fuel (i + 1)
            else if lower = "meta" then
              match find_tag_end l after_name with
              | some tag_end =>
                let tag_html := (l.drop i).take (tag_end + 1 - i)
                if is_meta_named tag_html "description"
                    || is_meta_named tag_html "keywords" then
                  removeHeadSeoAux l fuel (tag_end + 1)
                else c :: removeHeadSeoAux l fuel (i + 1)
              | none => c :: removeHeadSeoAux l fuel (i + 1)
            else c :: removeHeadSeoAux l fuel (i + 1)) from rfl]
  rw [if_neg (by omega)]
  rw [hgetD]
  simp only [bne_self_eq_false, Bool.false_eq_true, if_false]
  rw [hparse]
  simp only [lowerStr]
  simp only [show (String.mk ("meta".toList.map toLowerAscii)) = "meta" from
    by decide]
  rw [if_neg (by decide : ¬("meta" : String) = "title")]
  simp only [if_true]
  simp only [hfteM]
  rw [htag]
  rw [is_meta_named_kw_not_desc, is_meta_named_kw]
  simp only [Bool.false_or, if_true]
  congr 1
  omega

/-- Past the end of the head fragment the removal loop stops. -/
theorem removeHeadSeoAux_end (l : List Char) (g i : Nat)
    (h : l.length ≤ i) :
    removeHeadSeoAux l (g + 1) i = [] := by
  unfold removeHeadSeoAux
  rw [if_pos h]

/-- The removal pass erases the injected additions entirely (keywords
absent). -/
theorem remove_additions_nokw (E D : List Char) (hE : '<' ∉ E)
    (hDq : '"' ∉ D) :
    remove_head_seo_tags ("<title>".toList ++ (E ++ ("</title>".toList ++
      ("<meta name=\"description\" content=\"".toList ++
        (D ++ "\">".toList))))) = [] := by
  set l := "<title>".toList ++ (E ++ ("</title>".toList ++
      ("<meta name=\"description\" content=\"".toList ++
        (D ++ "\">".toList)))) with hl
  have hlen : l.length = 51 + (E.length + D.length) := by
    rw [hl]
    simp only [List.length_append]
    rw [show ("<title>".toList).length = 7 from by decide,
        show ("</title>".toList).length = 8 from by decide,
        show ("<meta name=\"description\" content=\"".toList).length = 34
          from by decide,
        show ("\">".toList).length = 2 from by decide]
    omega
  have hdrop2 : l.drop (15 + E.length) =
      "<meta name=\"description\" content=\"".toList ++
        (D ++ ("\">".toList ++ [])) := by
    rw [hl]
    rw [show 15 + E.length = ("<title>".toList).length + (E.length + 8)
      from by
        rw [show ("<title>".toList).length = 7 from by decide]
        omega]
    rw [List.drop_append]
    rw [List.drop_append]
    rw [List.drop_left' (by decide :
      ("</title>".toList).length = 8)]
    simp [List.append_nil]
  unfold remove_head_seo_tags
  rw [strip_title_step l 0 l.length E
    ("<meta name=\"description\" content=\"".toList ++ (D ++ "\">".toList))
    (by rw [hl, List.drop_zero]) hE]
  rw [show 0 + (15 + E.length) = 15 + E.length from by omega]
  rw [show l.length = (50 + (E.length + D.length)) + 1 from by omega]
  rw [strip_meta_desc_step l (15 + E.length) (50 + (E.length + D.length)) D []
    hdrop2 hDq]
  rw [show 50 + (E.length + D.length) = (49 + (E.length + D.length)) + 1
    from by omega]
  exact removeHeadSeoAux_end l _ _ (by omega)

/-- The removal pass erases the injected additions entirely (keywords
present). -/
theorem remove_additions_kw (E D K : List Char) (hE : '<' ∉ E)
    (hDq : '"' ∉ D) (hKq : '"' ∉ K) :
    remove_head_seo_tags ("<title>".toList ++ (E ++ ("</title>".toList ++
      ("<meta name=\"description\" content=\"".toList ++
        (D ++ ("\">".toList ++
          ("<meta name=\"keywords\" content=\"".toList ++
            (K ++ "\">".toList)))))))) = [] := by
  set l := "<title>".toList ++ (E ++ ("</title>".toList ++
      ("<meta name=\"description\" content=\"".toList ++
        (D ++ ("\">".toList ++
          ("<meta name=\"keywords\" content=\"".toList ++
            (K ++ "\">".toList))))))) with hl
  have hlen : l.length = 84 + (E.length + (D.length + K.length)) := by
    rw [hl]
    simp only [List.length_append]
    rw [show ("<title>".toList).length = 7 from by decide,
        show ("</title>".toList).length = 8 from by decide,
        show ("<meta name=\"description\" content=\"".toList).length = 34
          from by decide,
        show ("<meta name=\"keywords\" content=\"".toList).length = 31
          from by decide,
        show ("\">".toList).length = 2 from by decide]
    omega
  have hdrop2 : l.drop (15 + E.length) =
      "<meta name=\"description\" content=\"".toList ++
        (D ++ ("\">".toList ++
          ("<meta name=\"keywords\" content=\"".toList ++
            (K ++ "\">".toList)))) := by
    rw [hl]
    rw [show 15 + E.length = ("<title>".toList).length + (E.length + 8)
      from by
        rw [show ("<title>".toList).length = 7 from by decide]
        omega]
    rw [List.drop_append]
    rw [List.drop_append]
    rw [List.drop_left' (by decide :
      ("</title>".toList).length = 8)]
  have hdrop3 : l.drop (51 + (E.length + D.length)) =
      "<meta name=\"keywords\" content=\"".toList ++
        (K ++ ("\">".toList ++ [])) := by
    rw [hl]
    rw [show 51 + (E.length + D.length)
        = ("<title>".toList).length + (E.length + (8 + (34 + (D.length + 2))))
      from by
        rw [show ("<title>".toList).length = 7 from by decide]
        omega]
    rw [List.drop_append]
    rw [List.drop_append]
    rw [show (8 : Nat) + (34 + (D.length + 2))
        = ("</title>".toList).length + (34 + (D.length + 2)) from by
      rw [show ("</title>".toList).length = 8 from by decide]]
    rw [List.drop_append]
    rw [show (34 : Nat) + (D.length + 2)
        = ("<meta name=\"description\" content=\"".toList).length +
          (D.length + 2) from by
      rw [show ("<meta name=\"description\" content=\"".toList).length = 34
        from by decide]]
    rw [List.drop_append]
    rw [List.drop_append]
    rw [List.drop_left' (by decide : ("\">".toList).length = 2)]
    simp [List.append_nil]
  unfold remove_head_seo_tags
  rw [strip_title_step l 0 l.length E
    ("<meta name=\"description\" content=\"".toList ++
      (D ++ ("\">".toList ++
        ("<meta name=\"keywords\" content=\"".toList ++
          (K ++ "\">".toList)))))
    (by rw [hl, List.drop_zero]) hE]
  rw [show 0 + (15 + E.length) = 15 + E.length from by omega]
  rw [show l.length = (83 + (E.length + (D.length + K.length))) + 1
    from by omega]
  rw [strip_meta_desc_step l (15 + E.length)
    (83 + (E.length + (D.length + K.length))) D
    ("<meta name=\"keywords\" content=\"".toList ++ (K ++ "\">".toList))
    hdrop2 hDq]
  rw [show 15 + E.length + (36 + D.length) = 51 + (E.length + D.length)
    from by omega]
  rw [show 83 + (E.length + (D.length + K.length))
      = (82 + (E.length + (D.length + K.length))) + 1 from by omega]
  rw [strip_meta_kw_step l (51 + (E.length + D.length))
    (82 + (E.length + (D.length + K.length))) K [] hdrop3 hKq]
  rw [show 82 + (E.length + (D.length + K.length))
      = (81 + (E.length + (D.length + K.length))) + 1 from by omega]
  exact removeHeadSeoAux_end l _ _ (by omega)

/-- The additions list in right-nested form: either without or with the
keywords meta, the latter holding escaped keyword text. -/
theorem seoAdditions_shape (title : String) (seo : SeoMeta) :
    seoAdditions title seo = "<title>".toList ++
        (escapeHtml title.toList ++ ("</title>".toList ++
          ("<meta name=\"description\" content=\"".toList ++
            (escapeHtmlAttr seo.description.toList ++ "\">".toList)))) ∨
      ∃ z, seoAdditions title seo = "<title>".toList ++
        (escapeHtml title.toList ++ ("</title>".toList ++
          ("<meta name=\"description\" content=\"".toList ++
            (escapeHtmlAttr seo.description.toList ++ ("\">".toList ++
              ("<meta name=\"keywords\" content=\"".toList ++
                (escapeHtmlAttr z ++ "\">".toList))))))) := by
  simp only [seoAdditions]
  cases hsk : seo.keywords with
  | none =>
    left
    simp [List.append_assoc]
  | some items =>
    by_cases hws : (String.intercalate ", " items).toList.all rustIsWhitespace
      = true
    · left
      simp only [hws, if_true]
      simp [List.append_assoc]
    · right
      refine ⟨(String.intercalate ", " items).toList, ?_⟩
      simp only [if_neg hws]
      simp [List.append_assoc]

/-- Removing SEO tags from the freshly injected additions leaves
nothing. -/
theorem remove_additions (title : String) (seo : SeoMeta) :
    remove_head_seo_tags (seoAdditions title seo) = [] := by
  rcases seoAdditions_shape title seo with h | ⟨z, h⟩
  · rw [h]
    exact remove_additions_nokw _ _ (lt_not_mem_escapeHtml _)
      (quot_not_mem_escapeHtmlAttr _)
  · rw [h]
    exact remove_additions_kw _ _ _ (lt_not_mem_escapeHtml _)
      (quot_not_mem_escapeHtmlAttr _) (quot_not_mem_escapeHtmlAttr _)

/-- Injecting a second time over the test document reproduces the
once-injected result byte for byte. -/
theorem inject_twice_doc0 (title : String) (seo : SeoMeta) :
    inject_seo_meta
        (inject_seo_meta "<html><head></head><body></body></html>".toList
          title seo) title seo
      = inject_seo_meta "<html><head></head><body></body></html>".toList
          title seo := by
  rw [inject_doc0]
  have hfhr := fhr_head12
    (seoAdditions title seo ++ "</head><body></body></html>".toList)
    (12 + (seoAdditions title seo).length) (findHC_once title seo)
  simp only [inject_seo_meta]
  rw [hfhr]
  simp only []
  rw [show ("<html><head>".toList ++
        (seoAdditions title seo ++ "</head><body></body></html>".toList)).take
          12
      = "<html><head>".toList from List.take_left' (by decide)]
  rw [show ("<html><head>".toList ++
        (seoAdditions title seo ++ "</head><body></body></html>".toList)).drop
          12
      = seoAdditions title seo ++ "</head><body></body></html>".toList
      from List.drop_left' (by decide)]
  rw [show 12 + (seoAdditions title seo).length - 12
      = (seoAdditions title seo).length from by omega]
  rw [List.take_left]
  rw [remove_additions]
  rw [show (12 : Nat) + (seoAdditions title seo).length
      = ("<html><head>".toList).length + (seoAdditions title seo).length
      from by rw [show ("<html><head>".toList).length = 12 from by decide]]
  rw [List.drop_append]
  rw [List.drop_left]
  simp [List.append_assoc]

/-- The head content of the once-injected test document is exactly the
injected additions. -/
theorem headContent_once_doc0 (title : String) (seo : SeoMeta) :
    headContent
        (inject_seo_meta "<html><head></head><body></body></html>".toList
          title seo)
      = some (seoAdditions title seo) := by
  rw [inject_doc0]
  have hfhr := fhr_head12
    (seoAdditions title seo ++ "</head><body></body></html>".toList)
    (12 + (seoAdditions title seo).length) (findHC_once title seo)
  simp only [headContent]
  rw [hfhr]
  simp only [Option.map_some']
  rw [show ("<html><head>".toList ++
        (seoAdditions title seo ++ "</head><body></body></html>".toList)).drop
          12
      = seoAdditions title seo ++ "</head><body></body></html>".toList
      from List.drop_left' (by decide)]
  rw [show 12 + (seoAdditions title seo).length - 12
      = (seoAdditions title seo).length from by omega]
  rw [List.take_left]

theorem getD_append_left (A Y : List Char) (k : Nat) (hk : k < A.length)
    (d : Char) : (A ++ Y).getD k d = A.getD k d := by
  induction A generalizing k with
  | nil => simp at hk
  | cons c rest ih =>
    cases k with
    | zero => rfl
    | succ k2 =>
      simp only [List.cons_append, List.getD_cons_succ]
      exact ih k2 (by simp at hk; omega)

theorem getD_drop_add (B : List Char) (j k : Nat) (d : Char) :
    (B.drop j).getD k d = B.getD (j + k) d := by
  induction B generalizing j with
  | nil => simp
  | cons c rest ih =>
    cases j with
    | zero => simp
    | succ j2 =>
      show (rest.drop j2).getD k d = _
      rw [ih j2]
      rw [show j2 + 1 + k = (j2 + k) + 1 from by omega]
      rw [List.getD_cons_succ]

theorem getD_of_isPrefixOf (nl L : List Char) (h : nl.isPrefixOf L = true)
    (k : Nat) (hk : k < nl.length) (d : Char) :
    L.getD k d = nl.getD k d := by
  induction nl generalizing L k with
  | nil => simp at hk
  | cons c rest ih =>
    cases L with
    | nil => simp [List.isPrefixOf] at h
    | cons c2 L2 =>
      simp only [List.isPrefixOf, Bool.and_eq_true, beq_iff_eq] at h
      cases k with
      | zero =>
        simp only [List.getD_cons_zero]
        exact h.1.symm
      | succ k2 =>
        simp only [List.getD_cons_succ]
        exact ih L2 h.2 k2 (by simp at hk; omega)

/-- A needle that mismatches some character inside the block at every
start position of the block matches at none of them, whatever follows
the block.  The hypothesis is decidable, so concrete (needle, block)
pairs discharge it by decide. -/
theorem nomatch_of_mismatch (nl B : List Char)
    (h : ∀ j, j < B.length → ∃ k, k < nl.length ∧ j + k < B.length ∧
      nl.getD k ' ' ≠ B.getD (j + k) ' ') (Y : List Char) :
    ∀ j, j < B.length → ¬ nl.isPrefixOf ((B.drop j) ++ Y) := by
  intro j hj hpre
  obtain ⟨k, hk1, hk2, hne⟩ := h j hj
  apply hne
  rw [← getD_of_isPrefixOf nl ((B.drop j) ++ Y) hpre k hk1 ' ']
  rw [getD_append_left _ _ _ (by simp; omega) ' ']
  rw [getD_drop_add]

/-- One occurrence at the head of the list adds one to the count. -/
theorem countSubAux_cons_match (nl : List Char) (c : Char) (R : List Char)
    (h : nl.isPrefixOf (c :: R) = true) :
    countSubAux nl (c :: R) = 1 + countSubAux nl R := by
  simp only [countSubAux]
  rw [if_pos h]

theorem count_title_nokw (E D : List Char) (hE : '<' ∉ E) (hD : '<' ∉ D) :
    countSubAux "<title".toList ("<title>".toList ++ (E ++
      ("</title>".toList ++ ("<meta name=\"description\" content=\"".toList ++
        (D ++ "\">".toList))))) = 1 := by
  rw [show "<title>".toList ++ (E ++ ("</title>".toList ++
        ("<meta name=\"description\" content=\"".toList ++
          (D ++ "\">".toList))))
      = '<' :: ("title>".toList ++ (E ++ ("</title>".toList ++
        ("<meta name=\"description\" content=\"".toList ++
          (D ++ "\">".toList))))) from rfl]
  rw [countSubAux_cons_match _ _ _ (by rfl)]
  rw [countSubAux_skip _ "title>".toList _
    (nomatch_of_mismatch _ _ (by decide) _)]
  rw [countSubAux_skip "<title".toList E _ (fun j hj => no_match_of_no_lt "title".toList E _ hE j hj)]
  rw [countSubAux_skip _ "</title>".toList _
    (nomatch_of_mismatch _ _ (by decide) _)]
  rw [countSubAux_skip _ "<meta name=\"description\" content=\"".toList _
    (nomatch_of_mismatch _ _ (by decide) _)]
  rw [countSubAux_skip "<title".toList D _ (fun j hj => no_match_of_no_lt "title".toList D _ hD j hj)]
  rfl

theorem count_title_kw (E D K : List Char) (hE : '<' ∉ E) (hD : '<' ∉ D)
    (hK : '<' ∉ K) :
    countSubAux "<title".toList ("<title>".toList ++ (E ++
      ("</title>".toList ++ ("<meta name=\"description\" content=\"".toList ++
        (D ++ ("\">".toList ++ ("<meta name=\"keywords\" content=\"".toList ++
          (K ++ "\">".toList)))))))) = 1 := by
  rw [show "<title>".toList ++ (E ++ ("</title>".toList ++
        ("<meta name=\"description\" content=\"".toList ++
          (D ++ ("\">".toList ++
            ("<meta name=\"keywords\" content=\"".toList ++
              (K ++ "\">".toList)))))))
      = '<' :: ("title>".toList ++ (E ++ ("</title>".toList ++
        ("<meta name=\"description\" content=\"".toList ++
          (D ++ ("\">".toList ++
            ("<meta name=\"keywords\" content=\"".toList ++
              (K ++ "\">".toList)))))))) from rfl]
  rw [countSubAux_cons_match _ _ _ (by rfl)]
  rw [countSubAux_skip _ "title>".toList _
    (nomatch_of_mismatch _ _ (by decide) _)]
  rw [countSubAux_skip "<title".toList E _ (fun j hj => no_match_of_no_lt "title".toList E _ hE j hj)]
  rw [countSubAux_skip _ "</title>".toList _
    (nomatch_of_mismatch _ _ (by decide) _)]
  rw [countSubAux_skip _ "<meta name=\"description\" content=\"".toList _
    (nomatch_of_mismatch _ _ (by decide) _)]
  rw [countSubAux_skip "<title".toList D _ (fun j hj => no_match_of_no_lt "title".toList D _ hD j hj)]
  rw [countSubAux_skip _ "\">".toList _
    (nomatch_of_mismatch _ _ (by decide) _)]
  rw [countSubAux_skip _ "<meta name=\"keywords\" content=\"".toList _
    (nomatch_of_mismatch _ _ (by decide) _)]
  rw [countSubAux_skip "<title".toList K _ (fun j hj => no_match_of_no_lt "title".toList K _ hK j hj)]
  rfl

theorem count_desc_nokw (E D : List Char) (hE : '<' ∉ E) (hD : '<' ∉ D) :
    countSubAux "<meta name=\"description\"".toList ("<title>".toList ++ (E ++
      ("</title>".toList ++ ("<meta name=\"description\" content=\"".toList ++
        (D ++ "\">".toList))))) = 1 := by
  rw [countSubAux_skip _ "<title>".toList _
    (nomatch_of_mismatch _ _ (by decide) _)]
  rw [countSubAux_skip "<meta name=\"description\"".toList E _
    (fun j hj => no_match_of_no_lt "meta name=\"description\"".toList E _ hE j hj)]
  rw [countSubAux_skip _ "</title>".toList _
    (nomatch_of_mismatch _ _ (by decide) _)]
  rw [show "<meta name=\"description\" content=\"".toList ++
        (D ++ "\">".toList)
      = '<' :: ("meta name=\"description\" content=\"".toList ++
        (D ++ "\">".toList)) from rfl]
  rw [countSubAux_cons_match _ _ _ (by rfl)]
  rw [countSubAux_skip _ "meta name=\"description\" content=\"".toList _
    (nomatch_of_mismatch _ _ (by decide) _)]
  rw [countSubAux_skip "<meta name=\"description\"".toList D _
    (fun j hj => no_match_of_no_lt "meta name=\"description\"".toList D _ hD j hj)]
  rfl

theorem count_desc_kw (E D K : List Char) (hE : '<' ∉ E) (hD : '<' ∉ D)
    (hK : '<' ∉ K) :
    countSubAux "<meta name=\"description\"".toList ("<title>".toList ++ (E ++
      ("</title>".toList ++ ("<meta name=\"description\" content=\"".toList ++
        (D ++ ("\">".toList ++ ("<meta name=\"keywords\" content=\"".toList ++
          (K ++ "\">".toList)))))))) = 1 := by
  rw [countSubAux_skip _ "<title>".toList _
    (nomatch_of_mismatch _ _ (by decide) _)]
  rw [countSubAux_skip "<meta name=\"description\"".toList E _
    (fun j hj => no_match_of_no_lt "meta name=\"description\"".toList E _ hE j hj)]
  rw [countSubAux_skip _ "</title>".toList _
    (nomatch_of_mismatch _ _ (by decide) _)]
  rw [show "<meta name=\"description\" content=\"".toList ++
        (D ++ ("\">".toList ++ ("<meta name=\"keywords\" content=\"".toList ++
          (K ++ "\">".toList))))
      = '<' :: ("meta name=\"description\" content=\"".toList ++
        (D ++ ("\">".toList ++ ("<meta name=\"keywords\" content=\"".toList ++
          (K ++ "\">".toList))))) from rfl]
  rw [countSubAux_cons_match _ _ _ (by rfl)]
  rw [countSubAux_skip _ "meta name=\"description\" content=\"".toList _
    (nomatch_of_mismatch _ _ (by decide) _)]
  rw [countSubAux_skip "<meta name=\"description\"".toList D _
    (fun j hj => no_match_of_no_lt "meta name=\"description\"".toList D _ hD j hj)]
  rw [countSubAux_skip _ "\">".toList _
    (nomatch_of_mismatch _ _ (by decide) _)]
  rw [countSubAux_skip _ "<meta name=\"keywords\" content=\"".toList _
    (nomatch_of_mismatch _ _ (by decide) _)]
  rw [countSubAux_skip "<meta name=\"description\"".toList K _
    (fun j hj => no_match_of_no_lt "meta name=\"description\"".toList K _ hK j hj)]
  rfl

theorem count_kw_nokw (E D : List Char) (hE : '<' ∉ E) (hD : '<' ∉ D) :
    countSubAux "<meta name=\"keywords\"".toList ("<title>".toList ++ (E ++
      ("</title>".toList ++ ("<meta name=\"description\" content=\"".toList ++
        (D ++ "\">".toList))))) = 0 := by
  rw [countSubAux_skip _ "<title>".toList _
    (nomatch_of_mismatch _ _ (by decide) _)]
  rw [countSubAux_skip "<meta name=\"keywords\"".toList E _
    (fun j hj => no_match_of_no_lt "meta name=\"keywords\"".toList E _ hE j hj)]
  rw [countSubAux_skip _ "</title>".toList _
    (nomatch_of_mismatch _ _ (by decide) _)]
  rw [countSubAux_skip _ "<meta name=\"description\" content=\"".toList _
    (nomatch_of_mismatch _ _ (by decide) _)]
  rw [countSubAux_skip "<meta name=\"keywords\"".toList D _
    (fun j hj => no_match_of_no_lt "meta name=\"keywords\"".toList D _ hD j hj)]
  rfl

theorem count_kw_kw (E D K : List Char) (hE : '<' ∉ E) (hD : '<' ∉ D)
    (hK : '<' ∉ K) :
    countSubAux "<meta name=\"keywords\"".toList ("<title>".toList ++ (E ++
      ("</title>".toList ++ ("<meta name=\"description\" content=\"".toList ++
        (D ++ ("\">".toList ++ ("<meta name=\"keywords\" content=\"".toList ++
          (K ++ "\">".toList)))))))) = 1 := by
  rw [countSubAux_skip _ "<title>".toList _
    (nomatch_of_mismatch _ _ (by decide) _)]
  rw [countSubAux_skip "<meta name=\"keywords\"".toList E _
    (fun j hj => no_match_of_no_lt "meta name=\"keywords\"".toList E _ hE j hj)]
  rw [countSubAux_skip _ "</title>".toList _
    (nomatch_of_mismatch _ _ (by decide) _)]
  rw [countSubAux_skip _ "<meta name=\"description\" content=\"".toList _
    (nomatch_of_mismatch _ _ (by decide) _)]
  rw [countSubAux_skip "<meta name=\"keywords\"".toList D _
    (fun j hj => no_match_of_no_lt "meta name=\"keywords\"".toList D _ hD j hj)]
  rw [countSubAux_skip _ "\">".toList _
    (nomatch_of_mismatch _ _ (by decide) _)]
  rw [show "<meta name=\"keywords\" content=\"".toList ++
        (K ++ "\">".toList)
      = '<' :: ("meta name=\"keywords\" content=\"".toList ++
        (K ++ "\">".toList)) from rfl]
  rw [countSubAux_cons_match _ _ _ (by rfl)]
  rw [countSubAux_skip _ "meta name=\"keywords\" content=\"".toList _
    (nomatch_of_mismatch _ _ (by decide) _)]
  rw [countSubAux_skip "<meta name=\"keywords\"".toList K _
    (fun j hj => no_match_of_no_lt "meta name=\"keywords\"".toList K _ hK j hj)]
  rfl

/-- seoAdditions_shape refined with the keywords flag. -/
theorem seoAdditions_shape_flag (title : String) (seo : SeoMeta) :
    (keywordsPresent seo = false ∧
      seoAdditions title seo = "<title>".toList ++
        (escapeHtml title.toList ++ ("</title>".toList ++
          ("<meta name=\"description\" content=\"".toList ++
            (escapeHtmlAttr seo.description.toList ++ "\">".toList))))) ∨
    (keywordsPresent seo = true ∧
      ∃ z, seoAdditions title seo = "<title>".toList ++
        (escapeHtml title.toList ++ ("</title>".toList ++
          ("<meta name=\"description\" content=\"".toList ++
            (escapeHtmlAttr seo.description.toList ++ ("\">".toList ++
              ("<meta name=\"keywords\" content=\"".toList ++
                (escapeHtmlAttr z ++ "\">".toList)))))))) := by
  simp only [seoAdditions, keywordsPresent]
  cases hsk : seo.keywords with
  | none =>
    left
    constructor
    · rfl
    · simp [List.append_assoc]
  | some items =>
    by_cases hws : (String.intercalate ", " items).toList.all rustIsWhitespace
      = true
    · left
      constructor
      · simp only []
        simp only [hws, Bool.not_true]
      · simp only [hws, if_true]
        simp [List.append_assoc]
    · right
      have hws' : (String.intercalate ", " items).toList.all rustIsWhitespace
          = false := by
        cases h : (String.intercalate ", " items).toList.all rustIsWhitespace
        · rfl
        · exact absurd h hws
      constructor
      · simp only []
        simp only [hws', Bool.not_false]
      · refine ⟨(String.intercalate ", " items).toList, ?_⟩
        simp only [hws', Bool.false_eq_true, if_false]
        simp [List.append_assoc]

/-- Occurrence counts of the SEO markers inside the injected additions. -/
theorem counts_additions (title : String) (seo : SeoMeta) :
    countSub (seoAdditions title seo) "<title".toList = 1 ∧
    countSub (seoAdditions title seo) "<meta name=\"description\"".toList = 1 ∧
    countSub (seoAdditions title seo) "<meta name=\"keywords\"".toList
      = (if keywordsPresent seo = true then 1 else 0) := by
  have hE := lt_not_mem_escapeHtml title.toList
  have hD := lt_not_mem_escapeHtmlAttr seo.description.toList
  rcases seoAdditions_shape_flag title seo with ⟨hf, h⟩ | ⟨hf, z, h⟩
  · refine ⟨?_, ?_, ?_⟩
    · rw [countSub, h]
      exact count_title_nokw _ _ hE hD
    · rw [countSub, h]
      exact count_desc_nokw _ _ hE hD
    · rw [countSub, h, hf]
      rw [if_neg (by simp)]
      exact count_kw_nokw _ _ hE hD
  · have hK := lt_not_mem_escapeHtmlAttr z
    refine ⟨?_, ?_, ?_⟩
    · rw [countSub, h]
      exact count_title_kw _ _ _ hE hD hK
    · rw [countSub, h]
      exact count_desc_kw _ _ _ hE hD hK
    · rw [countSub, h, hf]
      rw [if_pos rfl]
      exact count_kw_kw _ _ _ hE hD hK

set_option maxRecDepth 20000 in
/-- C3 counterexample: on a document whose head tag holds an attribute
value "<head>", injecting twice changes the head content, and the head
after one injection holds no title element at all — the injector finds
the head range inside the attribute value the second time because the
escaped title text leaves a quote that derails the scan. -/
theorem c3_inject_counterexample :
    headContent
        (inject_seo_meta
          (inject_seo_meta "<head a=\"<head></head>".toList "x\"y"
            ⟨"t", "", none, []⟩) "x\"y" ⟨"t", "", none, []⟩)
      ≠ headContent
        (inject_seo_meta "<head a=\"<head></head>".toList "x\"y"
          ⟨"t", "", none, []⟩) ∧
    countSub
        ((headContent
          (inject_seo_meta "<head a=\"<head></head>".toList "x\"y"
            ⟨"t", "", none, []⟩)).getD [])
        "<title".toList = 0 := by
  decide

/-- C3 (amended): on the spec's test document
"<html><head></head><body></body></html>", injecting the same title and
SeoMeta twice yields the same document as injecting once; the head
content after one injection is exactly the injected additions, which
contain exactly one title open tag, exactly one description meta, and a
keywords meta exactly when keywords are present and not
whitespace-blank.  (The all-documents idempotence sentence is dropped:
it fails on heads whose attribute values contain "<head>".) -/
theorem c3_inject_idempotent_amended (title : String) (seo : SeoMeta) :
    inject_seo_meta
        (inject_seo_meta "<html><head></head><body></body></html>".toList
          title seo) title seo
      = inject_seo_meta "<html><head></head><body></body></html>".toList
          title seo ∧
    headContent
        (inject_seo_meta "<html><head></head><body></body></html>".toList
          title seo) = some (seoAdditions title seo) ∧
    countSub (seoAdditions title seo) "<title".toList = 1 ∧
    countSub (seoAdditions title seo) "<meta name=\"description\"".toList
      = 1 ∧
    countSub (seoAdditions title seo) "<meta name=\"keywords\"".toList
      = (if keywordsPresent seo = true then 1 else 0) := by
  obtain ⟨h1, h2, h3⟩ := counts_additions title seo
  exact ⟨inject_twice_doc0 title seo, headContent_once_doc0 title seo,
    h1, h2, h3⟩
